import Mathlib

/-!
# OpenGeoSys: local assemblers, DOF indexing and local least-squares extrapolation

A shallow embedding of

* `Tests/NumLib/TestExtrapolation.cpp` (`LocalAssemblerData`, `TestProcess`),
* `ProcessLib/BoundaryCondition/BoundaryCondition.cpp` (`createBoundaryCondition`),
* `ProcessLib/ProcessVariable.cpp` (the `ProcessVariable` constructor),
* `MeshLib/Elements/TemplateTri.tpp` (`TemplateTri::reviseElement`),

together with models of the collaborators these files call (mesh, DOF index map,
executor, extrapolator), which follow the specification.

Conventions: `double` values are exact rationals; `std::vector` is `List`;
`std::unique_ptr<T>` is `Option T` (`none` is the null pointer); an operation
that can end in `OGS_FATAL` or a failed assertion returns `Except FatalError`.
-/

set_option autoImplicit false

namespace OGS

/-! ## Fatal outcomes -/

/-- The ways an operation can abort: `OGS_FATAL` call sites and failed preconditions. -/
inductive FatalError where
  | assertion
  | outOfBounds
  | nullDereference
  | unsupportedElement
  | missingDof
  | configuration
  | unknownBoundaryConditionType (name : String)
  | geometryNotFound (geometry_name geometrical_set_name : String)
  | componentTagMissing (variable_name : String)
  deriving DecidableEq, Repr

/-! ## Mesh (external collaborator) -/

/-- Modelled from the spec: a mesh element (`MeshLib::Element` is an external collaborator),
"has a fixed number of nodes n, a geometric/topological type"; here the ids of its nodes
(`Node*` identity) in local order, and its topological dimension. -/
structure Element where
  nodes : List Nat
  dimension : Nat
  deriving DecidableEq, Repr

/-- Modelled from the spec: the mesh (`MeshLib::Mesh` is an external collaborator), an
"ordered element collection" with its "dimensionality (1/2/3)"; as seen by `TestProcess`
and `createBoundaryCondition`: `getID`, `getNumberOfNodes` (nodes carry the ids
`0 .. numberOfNodes - 1`), `getElements`, `getDimension`.  An element points to nodes of
its own mesh (`nodes_valid`). -/
structure Mesh where
  id : Nat
  numberOfNodes : Nat
  elements : List Element
  dimension : Nat
  nodes_valid : ∀ e ∈ elements, ∀ n ∈ e.nodes, n < numberOfNodes

/-- Modelled from the spec: the nodes of the mesh by id, `mesh.getNodes()`. -/
def Mesh.getNodes (mesh : Mesh) : List Nat := List.range mesh.numberOfNodes

/-- Modelled from the spec: the number of elements, `mesh.getNumberOfElements()`. -/
def Mesh.getNumberOfElements (mesh : Mesh) : Nat := mesh.elements.length

/-- Modelled from the spec: one of "the node-subsets participating in each
variable/component", `MeshLib::MeshSubset(mesh, &nodes)`. -/
structure MeshSubset where
  mesh : Mesh
  nodes : List Nat

/-- Modelled from the spec: `MeshLib::MeshSubsets`, one object per component: the mesh
subsets the component lives on. -/
structure MeshSubsets where
  subsets : List MeshSubset

/-! ## DOF index map -/

/-- Modelled from the spec: the "two supported orderings" of the DOF index map,
`NumLib::ComponentOrder`. -/
inductive ComponentOrder where
  | BY_COMPONENT
  | BY_LOCATION
  deriving DecidableEq, Repr

/-- Modelled from the spec: the nodes a component lives on, over all of its mesh
subsets. -/
def MeshSubsets.nodeIds (s : MeshSubsets) : List Nat :=
  s.subsets.foldr (fun sub acc => sub.nodes ++ acc) []

/-- Modelled from the spec: the elements of the meshes a component lives on. -/
def MeshSubsets.elements (s : MeshSubsets) : List Element :=
  s.subsets.foldr (fun sub acc => sub.mesh.elements ++ acc) []

/-- Modelled from the spec: the DOF index map `NumLib::LocalToGlobalIndexMap`, "constructed
once from: the set of node-subsets participating in each variable/component, and the
chosen ordering convention". -/
structure LocalToGlobalIndexMap where
  all_mesh_subsets : List MeshSubsets
  order : ComponentOrder

namespace LocalToGlobalIndexMap

/-- Modelled from the spec: all (node, component) pairs in by-component order,
"all DOF of component 0 for all nodes come first, then all of component 1, etc.". -/
def dofsByComponent : Nat → List MeshSubsets → List (Nat × Nat)
  | _, [] => []
  | c, s :: rest => s.nodeIds.map (fun n => (n, c)) ++ dofsByComponent (c + 1) rest

/-- Modelled from the spec: the components (numbered from `c`) that node `n` takes part
in. -/
def componentsOfNode (n : Nat) : Nat → List MeshSubsets → List (Nat × Nat)
  | _, [] => []
  | c, s :: rest =>
    if n ∈ s.nodeIds then (n, c) :: componentsOfNode n (c + 1) rest
    else componentsOfNode n (c + 1) rest

/-- Modelled from the spec: all nodes taking part in some component, each once, in order
of first appearance. -/
def allNodes (subsets : List MeshSubsets) : List Nat :=
  (subsets.foldr (fun s acc => s.nodeIds ++ acc) []).dedup

/-- Modelled from the spec: all (node, component) pairs in by-node order,
"for each node, components are contiguous". -/
def dofsByLocation (subsets : List MeshSubsets) : List (Nat × Nat) :=
  (allNodes subsets).foldr (fun n acc => componentsOfNode n 0 subsets ++ acc) []

/-- Modelled from the spec: the (node, component) pairs in the order of their global
indices, for the map's ordering convention. -/
def dofs (m : LocalToGlobalIndexMap) : List (Nat × Nat) :=
  match m.order with
  | ComponentOrder.BY_COMPONENT => dofsByComponent 0 m.all_mesh_subsets
  | ComponentOrder.BY_LOCATION => dofsByLocation m.all_mesh_subsets

/-- Modelled from the spec: `globalSize() → N`. -/
def dofSize (m : LocalToGlobalIndexMap) : Nat := m.dofs.length

/-- Modelled from the spec: the number of components of the map. -/
def getNumberOfComponents (m : LocalToGlobalIndexMap) : Nat := m.all_mesh_subsets.length

/-- Modelled from the spec: global index of a (node, component) pair; a pair that is not
covered by the configured node subsets is a fatal error. -/
def getGlobalIndex (m : LocalToGlobalIndexMap) (node comp : Nat) : Except FatalError Nat :=
  if (node, comp) ∈ m.dofs then Except.ok (m.dofs.indexOf (node, comp))
  else Except.error FatalError.missingDof

/-- Modelled from the spec: the global indices of the given nodes for one component, in
the given order. -/
def nodeIndices (m : LocalToGlobalIndexMap) (comp : Nat) :
    List Nat → Except FatalError (List Nat)
  | [] => Except.ok []
  | n :: rest =>
    match m.getGlobalIndex n comp with
    | Except.error err => Except.error err
    | Except.ok i =>
      match nodeIndices m comp rest with
      | Except.error err => Except.error err
      | Except.ok is => Except.ok (i :: is)

/-- Modelled from the spec: the global indices of an element for the components
`comp, comp + 1, ...`, component after component. -/
def elementIndices (m : LocalToGlobalIndexMap) (e : Element) :
    Nat → List MeshSubsets → Except FatalError (List Nat)
  | _, [] => Except.ok []
  | comp, _ :: rest =>
    match m.nodeIndices comp e.nodes with
    | Except.error err => Except.error err
    | Except.ok is =>
      match elementIndices m e (comp + 1) rest with
      | Except.error err => Except.error err
      | Except.ok js => Except.ok (is ++ js)

/-- Modelled from the spec: the elements the map can be asked about, those of the first
component's meshes. -/
def elements (m : LocalToGlobalIndexMap) : List Element :=
  match m.all_mesh_subsets with
  | [] => []
  | s :: _ => s.elements

/-- Modelled from the spec: `indices(element_id) → ordered sequence of global indices`, one
entry per (local node, component) pair; an element that is not covered is a fatal error. -/
def indices (m : LocalToGlobalIndexMap) (element_id : Nat) : Except FatalError (List Nat) :=
  match m.elements.get? element_id with
  | none => Except.error FatalError.missingDof
  | some e => m.elementIndices e 0 m.all_mesh_subsets

end LocalToGlobalIndexMap

/-- Modelled from the spec: the free function `NumLib::getIndices(id, dof_table)`, the
`indices` lookup of the DOF index map. -/
def getIndices (id : Nat) (dof_table : LocalToGlobalIndexMap) : Except FatalError (List Nat) :=
  dof_table.indices id

/-! ## Dense linear algebra on lists -/

/-- Scalar product of two coefficient lists. -/
def dot (a b : List ℚ) : ℚ := (List.zipWith (fun p q => p * q) a b).sum

/-- Matrix-vector product, the matrix given by its rows. -/
def matVec (A : List (List ℚ)) (x : List ℚ) : List ℚ := A.map (fun row => dot row x)

/-- Column `j` of a matrix given by its rows. -/
def column (A : List (List ℚ)) (j : Nat) : List ℚ := A.map (fun row => row.getD j 0)

/-- The matrix `Aᵀ·A` of the normal equations, `n` the number of columns of `A`. -/
def normalMatrix (A : List (List ℚ)) (n : Nat) : List (List ℚ) :=
  (List.range n).map (fun j => (List.range n).map (fun k => dot (column A j) (column A k)))

/-- The right-hand side `Aᵀ·b` of the normal equations. -/
def normalRhs (A : List (List ℚ)) (b : List ℚ) (n : Nat) : List ℚ :=
  (List.range n).map (fun j => dot (column A j) b)

/-- One equation of a linear system: coefficients of the remaining unknowns and right-hand side. -/
abbrev Equation := List ℚ × ℚ

/-- First equation whose leading coefficient is non-zero, and the other equations. -/
def findPivot : List Equation → Option (Equation × List Equation)
  | [] => none
  | r :: rs =>
    if r.1.headD 0 ≠ 0 then some (r, rs)
    else
      match findPivot rs with
      | none => none
      | some (p, others) => some (p, r :: others)

/-- Removes the leading unknown from `r` by subtracting a multiple of the pivot equation `p`. -/
def eliminate (p r : Equation) : Equation :=
  (List.zipWith (fun a c => a - r.1.headD 0 / p.1.headD 0 * c) r.1.tail p.1.tail,
   r.2 - r.1.headD 0 / p.1.headD 0 * p.2)

/-- Drops the leading unknown of an equation in which it does not occur. -/
def dropColumn (r : Equation) : Equation := (r.1.tail, r.2)

/-- Gaussian elimination with back substitution for `n` unknowns; an unknown without a
pivot is set to zero. -/
def solveGauss : Nat → List Equation → List ℚ
  | 0, _ => []
  | n + 1, rows =>
    match findPivot rows with
    | none => 0 :: solveGauss n (rows.map dropColumn)
    | some (p, others) =>
      ((p.2 - dot p.1.tail (solveGauss n (others.map (eliminate p)))) / p.1.headD 0) ::
        solveGauss n (others.map (eliminate p))

/-- Scales the right-hand side of one equation. -/
def scaleEquation (c : ℚ) (r : Equation) : Equation := (r.1, c * r.2)

/-- Modelled from the spec: "Solve the linear least-squares problem minimize ||A·x - b||",
"solved via a direct factorization (normal equations or QR)"; here the normal equations
`Aᵀ·A·x = Aᵀ·b`, solved by elimination.  The number of unknowns is the length of the
first shape-function row. -/
def leastSquares (A : List (List ℚ)) (b : List ℚ) : List ℚ :=
  solveGauss (A.headD []).length
    (List.zip (normalMatrix A (A.headD []).length) (normalRhs A b (A.headD []).length))

/-- Modelled from the spec: "a scalar norm (e.g., max-absolute) of (A·x - b) across its m
integration points". -/
def residualNorm (A : List (List ℚ)) (x b : List ℚ) : ℚ :=
  (List.zipWith (fun p q => |p - q|) (matVec A x) b).foldl max 0

/-! ## Local assembler of the extrapolation test -/

/-- Shape matrices at one integration point; only the row `N` of shape-function values is
read here. -/
structure ShapeMatrices where
  N : List ℚ
  deriving DecidableEq, Repr

/-- Modelled from the spec: `NumLib::shapeFunctionInterpolate` for one scalar, the
shape-function row applied to the nodal values. -/
def shapeFunctionInterpolate (nodal_values N : List ℚ) : ℚ := dot N nodal_values

/-- The loop `for (ip = 0; ip < shape_matrices.size(); ++ip)` of the free function
`interpolateNodalValuesToIntegrationPoints`, started at integration point `ip`. -/
def interpolateLoop (local_nodal_values : List ℚ) :
    Nat → List ShapeMatrices → List ℚ → List ℚ
  | _, [], interpolated_values => interpolated_values
  | ip, sm :: rest, interpolated_values =>
    interpolateLoop local_nodal_values (ip + 1) rest
      (interpolated_values.set ip (shapeFunctionInterpolate local_nodal_values sm.N))

/-- The free function `interpolateNodalValuesToIntegrationPoints`. -/
def interpolateNodalValuesToIntegrationPoints (local_nodal_values : List ℚ)
    (shape_matrices : List ShapeMatrices) (interpolated_values : List ℚ) : List ℚ :=
  interpolateLoop local_nodal_values 0 shape_matrices interpolated_values

/-- The class `LocalAssemblerData`: its two private members. -/
structure LocalAssemblerData where
  shape_matrices : List ShapeMatrices
  int_pt_values : List ℚ
  deriving DecidableEq, Repr

namespace LocalAssemblerData

/-- The constructor `LocalAssemblerData(e, local_matrix_size, integration_order)`;
`initShapeMatrices` is `ProcessLib::initShapeMatrices` for the element's shape function. -/
def construct (initShapeMatrices : Element → Nat → List ShapeMatrices)
    (e : Element) (_local_matrix_size : Nat) (integration_order : Nat) : LocalAssemblerData :=
  { shape_matrices := initShapeMatrices e integration_order
    int_pt_values := List.replicate (initShapeMatrices e integration_order).length 0 }

/-- The method `getShapeMatrix(integration_point)`: the row `N` at that integration point. -/
def getShapeMatrix (self : LocalAssemblerData) (integration_point : Nat) :
    Except FatalError (List ℚ) :=
  match self.shape_matrices.get? integration_point with
  | none => Except.error FatalError.outOfBounds
  | some sm => Except.ok sm.N

/-- The method `getStoredQuantity(cache)`: returns the stored values; the second component
is the cache after the call. -/
def getStoredQuantity (self : LocalAssemblerData) (cache : List ℚ) : List ℚ × List ℚ :=
  (self.int_pt_values, cache)

/-- The method `getDerivedQuantity(cache)`: clears the cache, pushes `2.0 * value` for
each stored value, and returns the cache. -/
def getDerivedQuantity (self : LocalAssemblerData) (_cache : List ℚ) : List ℚ × List ℚ :=
  (self.int_pt_values.foldl (fun cache value => cache ++ [2 * value]) [],
   self.int_pt_values.foldl (fun cache value => cache ++ [2 * value]) [])

/-- The method `interpolateNodalValuesToIntegrationPoints(local_nodal_values)`. -/
def interpolateNodalValuesToIntegrationPoints (self : LocalAssemblerData)
    (local_nodal_values : List ℚ) : LocalAssemblerData :=
  { self with
    int_pt_values :=
      OGS.interpolateNodalValuesToIntegrationPoints local_nodal_values self.shape_matrices
        self.int_pt_values }

end LocalAssemblerData

/-- The states of the local assembler of element `e`: as constructed, and after any number
of calls of `interpolateNodalValuesToIntegrationPoints`. -/
inductive LocalAssemblerData.Reachable (initShapeMatrices : Element → Nat → List ShapeMatrices)
    (e : Element) (integration_order : Nat) : LocalAssemblerData → Prop where
  | construct (local_matrix_size : Nat) :
      LocalAssemblerData.Reachable initShapeMatrices e integration_order
        (LocalAssemblerData.construct initShapeMatrices e local_matrix_size integration_order)
  | interpolate (self : LocalAssemblerData) (local_nodal_values : List ℚ) :
      LocalAssemblerData.Reachable initShapeMatrices e integration_order self →
      LocalAssemblerData.Reachable initShapeMatrices e integration_order
        (self.interpolateNodalValuesToIntegrationPoints local_nodal_values)

/-- The type `IntegrationPointValuesMethod`: a const method of the local assembler taking
the cache and returning the integration-point values (and the cache it leaves). -/
abbrev IntegrationPointValuesMethod := LocalAssemblerData → List ℚ → List ℚ × List ℚ

/-- The members of `LocalAssemblerDataInterface` an `IntegrationPointValuesMethod` can point
to. -/
inductive QuantitySelector where
  | getStoredQuantity
  | getDerivedQuantity
  deriving DecidableEq, Repr

/-- The method a selector points to. -/
def QuantitySelector.method : QuantitySelector → IntegrationPointValuesMethod
  | QuantitySelector.getStoredQuantity => LocalAssemblerData.getStoredQuantity
  | QuantitySelector.getDerivedQuantity => LocalAssemblerData.getDerivedQuantity

/-! ## Local least-squares extrapolator -/

/-- Modelled from the spec: the result of `NumLib::makeExtrapolatable(local_assemblers,
method)`, the local assemblers seen as extrapolatable elements together with the
selector of the integration-point quantity. -/
structure ExtrapolatableElementCollection where
  local_assemblers : List (Option LocalAssemblerData)
  method : IntegrationPointValuesMethod

/-- Modelled from the spec: `NumLib::makeExtrapolatable`. -/
def makeExtrapolatable (local_assemblers : List (Option LocalAssemblerData))
    (method : IntegrationPointValuesMethod) : ExtrapolatableElementCollection :=
  { local_assemblers := local_assemblers, method := method }

/-- Modelled from the spec: the state of `NumLib::LocalLinearLeastSquaresExtrapolator`:
"stateless between calls except for two output buffers (global nodal vector, global
residual vector)", the local nodal vectors of the last extrapolation that
`calculateResiduals` takes up, and the scratch buffer handed to the quantity selector. -/
structure LocalLinearLeastSquaresExtrapolator where
  dof_table : LocalToGlobalIndexMap
  nodal_values : List ℚ
  residuals : List ℚ
  local_nodal_values : List (List ℚ)
  integration_point_values_cache : List ℚ

/-- Modelled from the spec: rows `ip, ip + 1, ..., ip + count - 1` of the design matrix of
one element, each read through `getShapeMatrix`. -/
def designRows (loc_asm : LocalAssemblerData) : Nat → Nat → Except FatalError (List (List ℚ))
  | _, 0 => Except.ok []
  | ip, count + 1 =>
    match loc_asm.getShapeMatrix ip with
    | Except.error err => Except.error err
    | Except.ok N =>
      match designRows loc_asm (ip + 1) count with
      | Except.error err => Except.error err
      | Except.ok rows => Except.ok (N :: rows)

/-- Modelled from the spec: "build the m×n design matrix A from shape-function rows at all
m integration points", `m` the number of integration-point values. -/
def designMatrix (loc_asm : LocalAssemblerData) (m : Nat) : Except FatalError (List (List ℚ)) :=
  designRows loc_asm 0 m

/-- Modelled from the spec: "Scatter x into the global nodal vector through the DOF Index
Map"; a later write to the same index replaces the earlier one. -/
def scatter : List ℚ → List Nat → List ℚ → List ℚ
  | global, i :: is, x :: xs => scatter (global.set i x) is xs
  | global, _, _ => global

namespace LocalLinearLeastSquaresExtrapolator

/-- Modelled from the spec: the extrapolator as constructed from a DOF table, with empty
output buffers. -/
def construct (dof_table : LocalToGlobalIndexMap) : LocalLinearLeastSquaresExtrapolator :=
  { dof_table := dof_table, nodal_values := [], residuals := [], local_nodal_values := [],
    integration_point_values_cache := [] }

/-- Modelled from the spec: steps 1 and 2 of `extrapolate` for one element: the local
nodal vector fitted to the integration-point values, and the cache left by the selector. -/
def extrapolateElement (loc_asm : LocalAssemblerData) (method : IntegrationPointValuesMethod)
    (cache : List ℚ) : Except FatalError (List ℚ × List ℚ) :=
  match designMatrix loc_asm (method loc_asm cache).1.length with
  | Except.error err => Except.error err
  | Except.ok A => Except.ok (leastSquares A (method loc_asm cache).1, (method loc_asm cache).2)

/-- Modelled from the spec: the pass of `extrapolate` over the elements `i, i + 1, ...`
in iteration order; the state is the global nodal vector, the local nodal vectors so
far, and the cache. -/
def extrapolateLoop (dof_table : LocalToGlobalIndexMap) (method : IntegrationPointValuesMethod) :
    Nat → List (Option LocalAssemblerData) → List ℚ → List (List ℚ) → List ℚ →
    Except FatalError (List ℚ × List (List ℚ) × List ℚ)
  | _, [], global, locals, cache => Except.ok (global, locals, cache)
  | _, none :: _, _, _, _ => Except.error FatalError.nullDereference
  | i, some loc_asm :: rest, global, locals, cache =>
    match extrapolateElement loc_asm method cache with
    | Except.error err => Except.error err
    | Except.ok r =>
      match dof_table.indices i with
      | Except.error err => Except.error err
      | Except.ok global_indices =>
        extrapolateLoop dof_table method (i + 1) rest (scatter global global_indices r.1)
          (locals ++ [r.1]) r.2

/-- Modelled from the spec: `extrapolate(extrapolatable_elements, quantity_selector)`; the
global nodal vector is overwritten: it starts from a fresh vector of the DOF table's
size. -/
def extrapolate (self : LocalLinearLeastSquaresExtrapolator)
    (extrapolatables : ExtrapolatableElementCollection) :
    Except FatalError LocalLinearLeastSquaresExtrapolator :=
  match extrapolateLoop self.dof_table extrapolatables.method 0 extrapolatables.local_assemblers
      (List.replicate self.dof_table.dofSize 0) [] self.integration_point_values_cache with
  | Except.error err => Except.error err
  | Except.ok r =>
    Except.ok { self with
      nodal_values := r.1, local_nodal_values := r.2.1,
      integration_point_values_cache := r.2.2 }

/-- Modelled from the spec: the pass of `calculateResiduals` over the elements: per element
the norm of `A·x - b`, with `x` the local nodal vector of the prior extrapolation. -/
def residualsLoop (method : IntegrationPointValuesMethod) :
    List (Option LocalAssemblerData) → List (List ℚ) → List ℚ →
    Except FatalError (List ℚ × List ℚ)
  | [], _, cache => Except.ok ([], cache)
  | none :: _, _, _ => Except.error FatalError.nullDereference
  | some loc_asm :: rest, locals, cache =>
    match designMatrix loc_asm (method loc_asm cache).1.length with
    | Except.error err => Except.error err
    | Except.ok A =>
      match residualsLoop method rest locals.tail (method loc_asm cache).2 with
      | Except.error err => Except.error err
      | Except.ok r =>
        Except.ok (residualNorm A (locals.headD []) (method loc_asm cache).1 :: r.1, r.2)

/-- Modelled from the spec: `calculateResiduals(extrapolatable_elements,
quantity_selector)`: "one scalar per element, indexed by element position". -/
def calculateResiduals (self : LocalLinearLeastSquaresExtrapolator)
    (extrapolatables : ExtrapolatableElementCollection) :
    Except FatalError LocalLinearLeastSquaresExtrapolator :=
  match residualsLoop extrapolatables.method extrapolatables.local_assemblers
      self.local_nodal_values self.integration_point_values_cache with
  | Except.error err => Except.error err
  | Except.ok r => Except.ok { self with residuals := r.1, integration_point_values_cache := r.2 }

/-- Modelled from the spec: the accessor `getNodalValues()` of the "global nodal vector"
buffer. -/
def getNodalValues (self : LocalLinearLeastSquaresExtrapolator) : List ℚ := self.nodal_values

/-- Modelled from the spec: the accessor `getElementResiduals()` of the "global residual
vector" buffer. -/
def getElementResiduals (self : LocalLinearLeastSquaresExtrapolator) : List ℚ := self.residuals

end LocalLinearLeastSquaresExtrapolator

/-! ## Executor and local-assembler factory -/

/-- Modelled from the spec: the transform variant of the executor, "for all elements,
produce one output per element into a preallocated output collection", the elements
being visited in the order `visit`. -/
def transformLoop {α β : Type} (f : Nat → α → Except FatalError β) (c : List α) :
    List Nat → List (Option β) → Except FatalError (List (Option β))
  | [], o => Except.ok o
  | i :: visit, o =>
    match c.get? i with
    | none => Except.error FatalError.outOfBounds
    | some item =>
      match f i item with
      | Except.error err => Except.error err
      | Except.ok r => transformLoop f c visit (o.set i (some r))

/-- Modelled from the spec: an execution order of the executor over `n` elements: "applies
operation to every assembler in the collection", each element once, in whatever order
the workers get to them. -/
structure Schedule (n : Nat) where
  order : List Nat
  complete : order.Perm (List.range n)

/-- Modelled from the spec: the schedule of single-threaded builds, "straight sequential
iteration". -/
def Schedule.sequential (n : Nat) : Schedule n :=
  { order := List.range n, complete := List.Perm.refl _ }

/-- Modelled from the spec: `GlobalExecutor::transformDereferenced(f, c, o, args...)`; the
output collection must be preallocated with one slot per element. -/
def transformDereferenced {α β : Type} (f : Nat → α → Except FatalError β)
    (c : List α) (o : List (Option β)) (visit : Schedule c.length) :
    Except FatalError (List (Option β)) :=
  if c.length = o.length then transformLoop f c visit.order o
  else Except.error FatalError.assertion

/-- Modelled from the spec: the void variant of the executor, "for all elements, perform
side effect"; the side effect of `f` on an element is the element it returns. -/
def executeLoop {α : Type} (f : Nat → α → Except FatalError α) :
    List Nat → List (Option α) → Except FatalError (List (Option α))
  | [], c => Except.ok c
  | i :: visit, c =>
    match c.get? i with
    | none => Except.error FatalError.outOfBounds
    | some none => Except.error FatalError.nullDereference
    | some (some item) =>
      match f i item with
      | Except.error err => Except.error err
      | Except.ok item1 => executeLoop f visit (c.set i (some item1))

/-- Modelled from the spec: `GlobalExecutor::executeDereferenced(f, c, args...)`. -/
def executeDereferenced {α : Type} (f : Nat → α → Except FatalError α)
    (c : List (Option α)) (visit : Schedule c.length) : Except FatalError (List (Option α)) :=
  executeLoop f visit.order c

/-- Modelled from the spec: the global vector's "indexed read", `x.get(indices)`. -/
def GlobalVector.get (x : List ℚ) : List Nat → Except FatalError (List ℚ)
  | [] => Except.ok []
  | i :: is =>
    match x.get? i with
    | none => Except.error FatalError.outOfBounds
    | some v =>
      match GlobalVector.get x is with
      | Except.error err => Except.error err
      | Except.ok vs => Except.ok (v :: vs)

/-- The numerical tables behind the local-assembler factory, taken as parameters: which
elements the factory knows for a global dimension, and `ProcessLib::initShapeMatrices`
for the element's shape function and integration method. -/
structure ShapeFunctionKernel where
  supported : Nat → Element → Bool
  initShapeMatrices : Nat → Element → Nat → List ShapeMatrices

/-- Modelled from the spec: `ProcessLib::LocalDataInitializer<LocalAssembler,
LocalAssemblerData, GlobalDim>`, constructed from the DOF table. -/
structure LocalDataInitializer where
  global_dim : Nat
  dof_table : LocalToGlobalIndexMap

/-- Modelled from the spec: `create(element, integration_order) → LocalAssembler`;
"Unsupported combinations fail fatally and synchronously". -/
def LocalDataInitializer.call (kernel : ShapeFunctionKernel) (self : LocalDataInitializer)
    (integration_order : Nat) (_id : Nat) (e : Element) : Except FatalError LocalAssemblerData :=
  if kernel.supported self.global_dim e then
    Except.ok (LocalAssemblerData.construct (kernel.initShapeMatrices self.global_dim) e
      (e.nodes.length * self.dof_table.getNumberOfComponents) integration_order)
  else Except.error FatalError.unsupportedElement

/-- The call `v.resize(n)` on a vector of pointers: cut to `n`, or filled up with nulls. -/
def resize {β : Type} (v : List (Option β)) (n : Nat) : List (Option β) :=
  v.take n ++ List.replicate (n - v.length) none

/-! ## The test process -/

/-- The class `TestProcess`: its private members. -/
structure TestProcess where
  integration_order : Nat
  mesh_subset_all_nodes : MeshSubset
  dof_table : LocalToGlobalIndexMap
  local_assemblers : List (Option LocalAssemblerData)
  extrapolator : LocalLinearLeastSquaresExtrapolator

namespace TestProcess

/-- The method `createLocalAssemblers<GlobalDim>(mesh)`. -/
def createLocalAssemblers (kernel : ShapeFunctionKernel) (GlobalDim : Nat)
    (self : TestProcess) (mesh : Mesh) (visit : Schedule mesh.elements.length) :
    Except FatalError TestProcess :=
  match transformDereferenced
      (LocalDataInitializer.call kernel { global_dim := GlobalDim, dof_table := self.dof_table }
        self.integration_order)
      mesh.elements (resize self.local_assemblers mesh.getNumberOfElements) visit with
  | Except.error err => Except.error err
  | Except.ok local_assemblers => Except.ok { self with local_assemblers := local_assemblers }

/-- The method `createAssemblers(mesh)`: the switch over the mesh dimension. -/
def createAssemblers (kernel : ShapeFunctionKernel) (self : TestProcess) (mesh : Mesh)
    (visit : Schedule mesh.elements.length) : Except FatalError TestProcess :=
  match mesh.dimension with
  | 1 => createLocalAssemblers kernel 1 self mesh visit
  | 2 => createLocalAssemblers kernel 2 self mesh visit
  | 3 => createLocalAssemblers kernel 3 self mesh visit
  | _ => Except.error FatalError.assertion

/-- The DOF table the constructor builds: one variable with one component on the subset
of all mesh nodes, numbered by component. -/
def dofTable (mesh : Mesh) : LocalToGlobalIndexMap :=
  { all_mesh_subsets := [{ subsets := [{ mesh := mesh, nodes := mesh.getNodes }] }]
    order := ComponentOrder.BY_COMPONENT }

/-- The constructor `TestProcess(mesh, integration_order)`. -/
def construct (kernel : ShapeFunctionKernel) (mesh : Mesh) (integration_order : Nat)
    (visit : Schedule mesh.elements.length) : Except FatalError TestProcess :=
  createAssemblers kernel
    { integration_order := integration_order
      mesh_subset_all_nodes := { mesh := mesh, nodes := mesh.getNodes }
      dof_table := dofTable mesh
      local_assemblers := []
      extrapolator := LocalLinearLeastSquaresExtrapolator.construct (dofTable mesh) }
    mesh visit

/-- The method `interpolateNodalValuesToIntegrationPoints(global_nodal_values)`: every local
assembler interpolates its own entries of the global vector. -/
def interpolateNodalValuesToIntegrationPoints (self : TestProcess)
    (global_nodal_values : List ℚ) (visit : Schedule self.local_assemblers.length) :
    Except FatalError TestProcess :=
  match executeDereferenced
      (fun id loc_asm =>
        match getIndices id self.dof_table with
        | Except.error err => Except.error err
        | Except.ok indices =>
          match GlobalVector.get global_nodal_values indices with
          | Except.error err => Except.error err
          | Except.ok local_x =>
            Except.ok (loc_asm.interpolateNodalValuesToIntegrationPoints local_x))
      self.local_assemblers visit with
  | Except.error err => Except.error err
  | Except.ok local_assemblers => Except.ok { self with local_assemblers := local_assemblers }

/-- The method `extrapolate(method)`: the process afterwards (its extrapolator has new
buffers), the nodal values and the element residuals. -/
def extrapolate (self : TestProcess) (method : IntegrationPointValuesMethod) :
    Except FatalError (TestProcess × List ℚ × List ℚ) :=
  match self.extrapolator.extrapolate (makeExtrapolatable self.local_assemblers method) with
  | Except.error err => Except.error err
  | Except.ok ex1 =>
    match ex1.calculateResiduals (makeExtrapolatable self.local_assemblers method) with
    | Except.error err => Except.error err
    | Except.ok ex2 =>
      Except.ok ({ self with extrapolator := ex2 }, ex2.getNodalValues, ex2.getElementResiduals)

end TestProcess

/-- The states a test process built on `mesh` goes through: constructed, then any number
of interpolations and extrapolations. -/
inductive TestProcess.Reachable (kernel : ShapeFunctionKernel) (mesh : Mesh)
    (integration_order : Nat) : TestProcess → Prop where
  | construct (visit : Schedule mesh.elements.length) (pcs : TestProcess) :
      TestProcess.construct kernel mesh integration_order visit = Except.ok pcs →
      TestProcess.Reachable kernel mesh integration_order pcs
  | interpolate (pcs pcs1 : TestProcess) (x : List ℚ)
      (visit : Schedule pcs.local_assemblers.length) :
      TestProcess.Reachable kernel mesh integration_order pcs →
      pcs.interpolateNodalValuesToIntegrationPoints x visit = Except.ok pcs1 →
      TestProcess.Reachable kernel mesh integration_order pcs1
  | extrapolate (pcs : TestProcess) (method : QuantitySelector)
      (r : TestProcess × List ℚ × List ℚ) :
      TestProcess.Reachable kernel mesh integration_order pcs →
      pcs.extrapolate method.method = Except.ok r →
      TestProcess.Reachable kernel mesh integration_order r.1

/-! ## Configuration tree and geometry (external collaborators) -/

/-- The read accessors of `BaseLib::ConfigTree` that the code below calls, for a tree type
`ConfigTree`, taken as parameters.  Each may end in a fatal error. -/
structure ConfigTreeApi (ConfigTree : Type) where
  getConfigParameterString : ConfigTree → String → Except FatalError String
  getConfigParameterInt : ConfigTree → String → Except FatalError Int
  getConfigParameterOptionalInt : ConfigTree → String → Except FatalError (Option Int)
  peekConfigParameterString : ConfigTree → String → Except FatalError String
  getConfigSubtreeOptional : ConfigTree → String → Except FatalError (Option ConfigTree)
  getConfigSubtreeList : ConfigTree → String → Except FatalError (List ConfigTree)

/-- A geometric object (point, polyline or surface), known by its identity. -/
structure GeoObject where
  id : Nat
  deriving DecidableEq, Repr

/-- The container `GeoLib::GEOObjects`: `getGeoObject(geometrical_set_name, geometry_name)`
returns the named object or a null pointer. -/
structure GEOObjects where
  getGeoObject : String → String → Option GeoObject

/-! ## Boundary conditions -/

/-- The struct `BoundaryConditionConfig`: the configuration subtree of one boundary
condition, the geometry it is set on, and the component it applies to. -/
structure BoundaryConditionConfig (ConfigTree : Type) where
  config : ConfigTree
  geometry : GeoObject
  component_id : Int

/-- The searchers of `MeshGeoToolsLib` for a mesh: `MeshNodeSearcher::getMeshNodeIDs` and
`BoundaryElementsSearcher::getBoundaryElements`. -/
structure MeshGeoTools where
  getMeshNodeIDs : Mesh → GeoObject → List Nat
  getBoundaryElements : Mesh → GeoObject → List Element

/-- The three factory functions declared in the boundary-condition headers, for result
types `D` (uniform Dirichlet), `N` (uniform Neumann) and `R` (uniform Robin).  Each reads
the `ConfigTree` and returns a `std::unique_ptr`: a call can abort, and its result can be
the null pointer. -/
structure BoundaryConditionFactories (ConfigTree D N R : Type) where
  createUniformDirichletBoundaryCondition :
    ConfigTree → List Nat → LocalToGlobalIndexMap → Nat → Int → Int →
    Except FatalError (Option D)
  createUniformNeumannBoundaryCondition :
    ConfigTree → List Element → LocalToGlobalIndexMap → Int → Int → Nat → Nat →
    Except FatalError (Option N)
  createUniformRobinBoundaryCondition :
    ConfigTree → List Element → LocalToGlobalIndexMap → Int → Int → Nat → Nat →
    Except FatalError (Option R)

/-- A boundary condition object behind `std::unique_ptr<BoundaryCondition>`: one of the
three concrete kinds. -/
inductive BoundaryCondition (D N R : Type) where
  | UniformDirichlet (bc : D)
  | UniformNeumann (bc : N)
  | UniformRobin (bc : R)

/-- The static function `getClonedElements(boundary_element_searcher, geometry)`: every
boundary element found is replaced by its copy; `clone` is the virtual method
`Element::clone()`. -/
def getClonedElements (clone : Element → Element) (tools : MeshGeoTools) (mesh : Mesh)
    (geometry : GeoObject) : List Element :=
  (tools.getBoundaryElements mesh geometry).map (fun e => clone e)

/-- The function `ProcessLib::createBoundaryCondition`; the pointer a factory returns is
returned as a pointer to the base class `BoundaryCondition`. -/
def createBoundaryCondition {ConfigTree D N R : Type} (api : ConfigTreeApi ConfigTree)
    (clone : Element → Element) (tools : MeshGeoTools)
    (factories : BoundaryConditionFactories ConfigTree D N R)
    (config : BoundaryConditionConfig ConfigTree) (dof_table : LocalToGlobalIndexMap)
    (mesh : Mesh) (variable_id : Int) (integration_order : Nat) :
    Except FatalError (Option (BoundaryCondition D N R)) :=
  match api.peekConfigParameterString config.config "type" with
  | Except.error err => Except.error err
  | Except.ok type_name =>
    if type_name = "UniformDirichlet" then
      match factories.createUniformDirichletBoundaryCondition config.config
          (tools.getMeshNodeIDs mesh config.geometry) dof_table mesh.id variable_id
          config.component_id with
      | Except.error err => Except.error err
      | Except.ok bc => Except.ok (bc.map BoundaryCondition.UniformDirichlet)
    else if type_name = "UniformNeumann" then
      match factories.createUniformNeumannBoundaryCondition config.config
          (getClonedElements clone tools mesh config.geometry) dof_table variable_id
          config.component_id integration_order mesh.dimension with
      | Except.error err => Except.error err
      | Except.ok bc => Except.ok (bc.map BoundaryCondition.UniformNeumann)
    else if type_name = "UniformRobin" then
      match factories.createUniformRobinBoundaryCondition config.config
          (getClonedElements clone tools mesh config.geometry) dof_table variable_id
          config.component_id integration_order mesh.dimension with
      | Except.error err => Except.error err
      | Except.ok bc => Except.ok (bc.map BoundaryCondition.UniformRobin)
    else Except.error (FatalError.unknownBoundaryConditionType type_name)

/-! ## Process variable -/

/-- The two factory functions for initial conditions, for a result type `IC`. -/
structure InitialConditionFactories (ConfigTree IC : Type) where
  createUniformInitialCondition : ConfigTree → Int → IC
  createMeshPropertyInitialCondition : ConfigTree → Mesh → Int → IC

/-- The class `ProcessVariable`: its private members. -/
structure ProcessVariable (ConfigTree IC : Type) where
  name : String
  mesh : Mesh
  n_components : Int
  initial_condition : Option IC
  bc_configs : List (BoundaryConditionConfig ConfigTree)

namespace ProcessVariable

/-- The "Initial condition" block of the constructor: the initial condition read from the
optional subtree, a null pointer if there is none or its type is unknown (which is logged,
not fatal). -/
def readInitialCondition {ConfigTree IC : Type} (api : ConfigTreeApi ConfigTree)
    (ics : InitialConditionFactories ConfigTree IC) (config : ConfigTree) (mesh : Mesh)
    (n_components : Int) : Except FatalError (Option IC) :=
  match api.getConfigSubtreeOptional config "initial_condition" with
  | Except.error err => Except.error err
  | Except.ok none => Except.ok none
  | Except.ok (some ic_config) =>
    match api.peekConfigParameterString ic_config "type" with
    | Except.error err => Except.error err
    | Except.ok type_name =>
      if type_name = "Uniform" then
        Except.ok (some (ics.createUniformInitialCondition ic_config n_components))
      else if type_name = "MeshProperty" then
        Except.ok (some (ics.createMeshPropertyInitialCondition ic_config mesh n_components))
      else Except.ok none

/-- The loop over the `boundary_condition` subtrees in the constructor; `bc_configs` are
the configs stored so far. -/
def readBoundaryConditions {ConfigTree : Type} (api : ConfigTreeApi ConfigTree)
    (geometries : GEOObjects) (name : String) (n_components : Int) :
    List ConfigTree → List (BoundaryConditionConfig ConfigTree) →
    Except FatalError (List (BoundaryConditionConfig ConfigTree))
  | [], bc_configs => Except.ok bc_configs
  | bc_config :: rest, bc_configs =>
    match api.getConfigParameterString bc_config "geometrical_set" with
    | Except.error err => Except.error err
    | Except.ok geometrical_set_name =>
      match api.getConfigParameterString bc_config "geometry" with
      | Except.error err => Except.error err
      | Except.ok geometry_name =>
        match geometries.getGeoObject geometrical_set_name geometry_name with
        | none => Except.error (FatalError.geometryNotFound geometry_name geometrical_set_name)
        | some geometry =>
          match api.getConfigParameterOptionalInt bc_config "component" with
          | Except.error err => Except.error err
          | Except.ok (some component_id) =>
            readBoundaryConditions api geometries name n_components rest
              (bc_configs ++
                [{ config := bc_config, geometry := geometry, component_id := component_id }])
          | Except.ok none =>
            if n_components = 1 then
              readBoundaryConditions api geometries name n_components rest
                (bc_configs ++ [{ config := bc_config, geometry := geometry, component_id := 0 }])
            else Except.error (FatalError.componentTagMissing name)

/-- The "Boundary conditions" block of the constructor. -/
def readBoundaryConditionsBlock {ConfigTree : Type} (api : ConfigTreeApi ConfigTree)
    (geometries : GEOObjects) (config : ConfigTree) (name : String) (n_components : Int) :
    Except FatalError (List (BoundaryConditionConfig ConfigTree)) :=
  match api.getConfigSubtreeOptional config "boundary_conditions" with
  | Except.error err => Except.error err
  | Except.ok none => Except.ok []
  | Except.ok (some bcs_config) =>
    match api.getConfigSubtreeList bcs_config "boundary_condition" with
    | Except.error err => Except.error err
    | Except.ok entries => readBoundaryConditions api geometries name n_components entries []

/-- The constructor `ProcessVariable(config, mesh, geometries)`. -/
def construct {ConfigTree IC : Type} (api : ConfigTreeApi ConfigTree)
    (ics : InitialConditionFactories ConfigTree IC) (config : ConfigTree) (mesh : Mesh)
    (geometries : GEOObjects) : Except FatalError (ProcessVariable ConfigTree IC) :=
  match api.getConfigParameterString config "name" with
  | Except.error err => Except.error err
  | Except.ok name =>
    match api.getConfigParameterInt config "components" with
    | Except.error err => Except.error err
    | Except.ok n_components =>
      match readInitialCondition api ics config mesh n_components with
      | Except.error err => Except.error err
      | Except.ok initial_condition =>
        match readBoundaryConditionsBlock api geometries config name n_components with
        | Except.error err => Except.error err
        | Except.ok bc_configs =>
          Except.ok
            { name := name, mesh := mesh, n_components := n_components
              initial_condition := initial_condition, bc_configs := bc_configs }

/-- The method `createBoundaryConditions(dof_table, variable_id, integration_order)`. -/
def createBoundaryConditions {ConfigTree IC D N R : Type} (api : ConfigTreeApi ConfigTree)
    (clone : Element → Element) (tools : MeshGeoTools)
    (factories : BoundaryConditionFactories ConfigTree D N R)
    (self : ProcessVariable ConfigTree IC) (dof_table : LocalToGlobalIndexMap)
    (variable_id : Int) (integration_order : Nat) :
    Except FatalError (List (Option (BoundaryCondition D N R))) :=
  self.bc_configs.foldr
    (fun config acc =>
      match createBoundaryCondition api clone tools factories config dof_table self.mesh
          variable_id integration_order with
      | Except.error err => Except.error err
      | Except.ok bc =>
        match acc with
        | Except.error err => Except.error err
        | Except.ok bcs => Except.ok (bc :: bcs))
    (Except.ok [])

end ProcessVariable

/-- What the constructor stores for one `boundary_condition` entry: the entry itself, the
geometry its two names resolve to, and the given component or the default 0 of a
single-component variable. -/
def ProcessVariable.Stores {ConfigTree : Type} (api : ConfigTreeApi ConfigTree)
    (geometries : GEOObjects) (n_components : Int) (entry : ConfigTree)
    (stored : BoundaryConditionConfig ConfigTree) : Prop :=
  stored.config = entry ∧
  (∃ geometrical_set_name geometry_name,
    api.getConfigParameterString entry "geometrical_set" = Except.ok geometrical_set_name ∧
    api.getConfigParameterString entry "geometry" = Except.ok geometry_name ∧
    geometries.getGeoObject geometrical_set_name geometry_name = some stored.geometry) ∧
  (api.getConfigParameterOptionalInt entry "component" = Except.ok (some stored.component_id) ∨
    (api.getConfigParameterOptionalInt entry "component" = Except.ok none ∧
      n_components = 1 ∧ stored.component_id = 0))

/-! ## Triangle elements -/

/-- A mesh edge as built by `new Edge(nodes, value)`: its two end nodes (node pointers) and
its value. -/
structure Edge where
  nodes : List Nat
  value : Nat
  deriving DecidableEq, Repr

/-- The class `TemplateTri<NNODES, FEMTRITYPE>`: the node pointers `_nodes[0 .. NNODES-1]`
and the value; a triangle has at least its three corner nodes. -/
structure TemplateTri (NNODES : Nat) where
  nodes : Fin NNODES → Nat
  value : Nat
  corners : 3 ≤ NNODES

namespace TemplateTri

/-- The node pointer `_nodes[0]`. -/
def node0 {NNODES : Nat} (self : TemplateTri NNODES) : Nat :=
  self.nodes ⟨0, by have := self.corners; omega⟩

/-- The node pointer `_nodes[1]`. -/
def node1 {NNODES : Nat} (self : TemplateTri NNODES) : Nat :=
  self.nodes ⟨1, by have := self.corners; omega⟩

/-- The node pointer `_nodes[2]`. -/
def node2 {NNODES : Nat} (self : TemplateTri NNODES) : Nat :=
  self.nodes ⟨2, by have := self.corners; omega⟩

/-- The method `reviseElement()`: `none` is the `NULL` result. -/
def reviseElement {NNODES : Nat} (self : TemplateTri NNODES) : Option Edge :=
  if self.node0 = self.node1 ∨ self.node1 = self.node2 then
    some { nodes := [self.node0, self.node2], value := self.value }
  else if self.node0 = self.node2 then
    some { nodes := [self.node0, self.node1], value := self.value }
  else none

end TemplateTri

/-- Consistency of a test process with the mesh it was built on: both DOF tables are the
one of the mesh, and there is one non-null local assembler per element, holding one value
per integration point. -/
def TestProcess.Consistent (mesh : Mesh) (pcs : TestProcess) : Prop :=
  pcs.dof_table = TestProcess.dofTable mesh ∧
  pcs.extrapolator.dof_table = TestProcess.dofTable mesh ∧
  pcs.local_assemblers.length = mesh.elements.length ∧
  ∀ la ∈ pcs.local_assemblers,
    ∃ a, la = some a ∧ a.int_pt_values.length = a.shape_matrices.length

/-! ## Example data -/

/-- A mesh of two line elements over three nodes. -/
def exampleMesh : Mesh :=
  { id := 0, numberOfNodes := 3
    elements := [{ nodes := [0, 1], dimension := 1 }, { nodes := [1, 2], dimension := 1 }]
    dimension := 1
    nodes_valid := by decide }

/-- A kernel for two-node line elements with three integration points: both ends and the
midpoint. -/
def exampleKernel : ShapeFunctionKernel :=
  { supported := fun _ e => e.nodes.length == 2
    initShapeMatrices := fun _ _ _ => [{ N := [1, 0] }, { N := [1 / 2, 1 / 2] }, { N := [0, 1] }] }

/-- The two elements of the example mesh visited in reverse order. -/
def exampleSchedule : Schedule exampleMesh.elements.length :=
  { order := [1, 0], complete := by decide }

/-- A process over the example mesh whose elements hold integration-point values. -/
def exampleProcess : TestProcess :=
  { integration_order := 2
    mesh_subset_all_nodes := { mesh := exampleMesh, nodes := exampleMesh.getNodes }
    dof_table := TestProcess.dofTable exampleMesh
    local_assemblers :=
      [some { shape_matrices := [{ N := [1, 0] }, { N := [1 / 2, 1 / 2] }, { N := [0, 1] }]
              int_pt_values := [3, 4, 5] },
       some { shape_matrices := [{ N := [1, 0] }, { N := [1 / 2, 1 / 2] }, { N := [0, 1] }]
              int_pt_values := [5, 6, 7] }]
    extrapolator := LocalLinearLeastSquaresExtrapolator.construct (TestProcess.dofTable exampleMesh) }

/-- The process the constructor builds over the example mesh with integration order 2. -/
def exampleConstructed : TestProcess :=
  { integration_order := 2
    mesh_subset_all_nodes := { mesh := exampleMesh, nodes := exampleMesh.getNodes }
    dof_table := TestProcess.dofTable exampleMesh
    local_assemblers :=
      [some { shape_matrices := [{ N := [1, 0] }, { N := [1 / 2, 1 / 2] }, { N := [0, 1] }]
              int_pt_values := [0, 0, 0] },
       some { shape_matrices := [{ N := [1, 0] }, { N := [1 / 2, 1 / 2] }, { N := [0, 1] }]
              int_pt_values := [0, 0, 0] }]
    extrapolator := LocalLinearLeastSquaresExtrapolator.construct (TestProcess.dofTable exampleMesh) }

/-- The example process with leftovers of an earlier extrapolation in its extrapolator. -/
def exampleProcessLater : TestProcess :=
  { exampleProcess with
    extrapolator :=
      { exampleProcess.extrapolator with
        nodal_values := [3, 5, 7], residuals := [0, 0]
        integration_point_values_cache := [1, 1] } }

/-- A small configuration: a process variable with two boundary conditions. -/
inductive ExampleConfigTree where
  | processVariable
  | boundaryConditions
  | inflow
  | outflow
  deriving DecidableEq, Repr

/-- Accessors of the example configuration: the variable "pressure" with `components`
components; the boundary condition `inflow` on "left" without a component tag and
`outflow` on "right" with component 0, both in the geometrical set "square". -/
def exampleConfigApi (components : Int) : ConfigTreeApi ExampleConfigTree :=
  { getConfigParameterString := fun tree key =>
      match tree, key with
      | ExampleConfigTree.processVariable, "name" => Except.ok "pressure"
      | ExampleConfigTree.inflow, "geometrical_set" => Except.ok "square"
      | ExampleConfigTree.inflow, "geometry" => Except.ok "left"
      | ExampleConfigTree.outflow, "geometrical_set" => Except.ok "square"
      | ExampleConfigTree.outflow, "geometry" => Except.ok "right"
      | _, _ => Except.error FatalError.configuration
    getConfigParameterInt := fun tree key =>
      match tree, key with
      | ExampleConfigTree.processVariable, "components" => Except.ok components
      | _, _ => Except.error FatalError.configuration
    getConfigParameterOptionalInt := fun tree key =>
      match tree, key with
      | ExampleConfigTree.outflow, "component" => Except.ok (some 0)
      | _, _ => Except.ok none
    peekConfigParameterString := fun tree key =>
      match tree, key with
      | ExampleConfigTree.inflow, "type" => Except.ok "UniformDirichlet"
      | ExampleConfigTree.outflow, "type" => Except.ok "UniformNeumann"
      | _, _ => Except.error FatalError.configuration
    getConfigSubtreeOptional := fun tree key =>
      match tree, key with
      | ExampleConfigTree.processVariable, "boundary_conditions" =>
        Except.ok (some ExampleConfigTree.boundaryConditions)
      | _, _ => Except.ok none
    getConfigSubtreeList := fun tree key =>
      match tree, key with
      | ExampleConfigTree.boundaryConditions, "boundary_condition" =>
        Except.ok [ExampleConfigTree.inflow, ExampleConfigTree.outflow]
      | _, _ => Except.ok [] }

/-- Geometries of the example: the polylines "left" and "right" of the set "square". -/
def exampleGeometries : GEOObjects :=
  { getGeoObject := fun geometrical_set_name geometry_name =>
      if geometrical_set_name = "square" then
        if geometry_name = "left" then some { id := 0 }
        else if geometry_name = "right" then some { id := 1 }
        else none
      else none }

/-- Geometries in which the set "square" has only the polyline "left". -/
def exampleGeometriesLeftOnly : GEOObjects :=
  { getGeoObject := fun geometrical_set_name geometry_name =>
      if geometrical_set_name = "square" then
        if geometry_name = "left" then some { id := 0 } else none
      else none }

/-- Initial-condition factories of the example; the result records which factory made it. -/
def exampleInitialConditions : InitialConditionFactories ExampleConfigTree Bool :=
  { createUniformInitialCondition := fun _ _ => true
    createMeshPropertyInitialCondition := fun _ _ _ => false }

/-- The process variable the constructor builds from the example configuration with one
component. -/
def exampleProcessVariable : ProcessVariable ExampleConfigTree Bool :=
  { name := "pressure", mesh := exampleMesh, n_components := 1, initial_condition := none
    bc_configs :=
      [{ config := ExampleConfigTree.inflow, geometry := { id := 0 }, component_id := 0 },
       { config := ExampleConfigTree.outflow, geometry := { id := 1 }, component_id := 0 }] }

/-- A triangle whose first two nodes coincide. -/
def exampleCollapsedTri : TemplateTri 3 :=
  { nodes := fun i => if i.val = 2 then 8 else 5, value := 7, corners := Nat.le_refl 3 }

/-- The example configuration with one component, whose `outflow` entry names component 5,
which the variable does not have. -/
def exampleConfigApiComponent5 : ConfigTreeApi ExampleConfigTree :=
  { exampleConfigApi 1 with
    getConfigParameterOptionalInt := fun tree key =>
      match tree, key with
      | ExampleConfigTree.outflow, "component" => Except.ok (some 5)
      | _, _ => Except.ok none }

/-- The process variable the constructor builds from the configuration that names
component 5. -/
def exampleProcessVariableComponent5 : ProcessVariable ExampleConfigTree Bool :=
  { name := "pressure", mesh := exampleMesh, n_components := 1, initial_condition := none
    bc_configs :=
      [{ config := ExampleConfigTree.inflow, geometry := { id := 0 }, component_id := 0 },
       { config := ExampleConfigTree.outflow, geometry := { id := 1 }, component_id := 5 }] }

theorem foldl_push_eq_map (f : ℚ → ℚ) (l acc : List ℚ) :
    l.foldl (fun cache value => cache ++ [f value]) acc = acc ++ l.map f := by
  induction l generalizing acc with
  | nil => simp
  | cons v rest ih => simp [ih]

theorem getDerivedQuantity_eq (self : LocalAssemblerData) (cache : List ℚ) :
    self.getDerivedQuantity cache =
      (self.int_pt_values.map (fun v => 2 * v), self.int_pt_values.map (fun v => 2 * v)) := by
  simp [LocalAssemblerData.getDerivedQuantity, foldl_push_eq_map]

theorem dot_scale_right (c : ℚ) (a b : List ℚ) :
    dot a (b.map (fun v => c * v)) = c * dot a b := by
  induction a generalizing b with
  | nil => simp [dot]
  | cons p a ih =>
    cases b with
    | nil => simp [dot]
    | cons q b =>
      have h := ih b
      simp only [dot] at h
      simp only [dot, List.map_cons, List.zipWith_cons_cons, List.sum_cons, h]
      ring

theorem normalRhs_scale (c : ℚ) (A : List (List ℚ)) (b : List ℚ) (n : Nat) :
    normalRhs A (b.map (fun v => c * v)) n = (normalRhs A b n).map (fun v => c * v) := by
  simp [normalRhs, dot_scale_right]

theorem zip_scale (c : ℚ) (M : List (List ℚ)) (r : List ℚ) :
    List.zip M (r.map (fun v => c * v)) = (List.zip M r).map (scaleEquation c) := by
  induction M generalizing r with
  | nil => simp
  | cons row M ih =>
    cases r with
    | nil => simp
    | cons v r => simp [ih, scaleEquation]

theorem findPivot_scale (c : ℚ) (rows : List Equation) :
    findPivot (rows.map (scaleEquation c)) =
      (findPivot rows).map (fun po => (scaleEquation c po.1, po.2.map (scaleEquation c))) := by
  induction rows with
  | nil => simp [findPivot]
  | cons r rs ih =>
    simp only [List.map_cons, findPivot]
    by_cases h : r.1.headD 0 ≠ 0
    · have h2 : (scaleEquation c r).1.headD 0 ≠ 0 := h
      rw [if_pos h, if_pos h2]
      rfl
    · have h2 : ¬ (scaleEquation c r).1.headD 0 ≠ 0 := h
      rw [if_neg h, if_neg h2, ih]
      cases findPivot rs with
      | none => simp
      | some po => simp

theorem eliminate_scale (c : ℚ) (p r : Equation) :
    eliminate (scaleEquation c p) (scaleEquation c r) = scaleEquation c (eliminate p r) := by
  simp only [eliminate, scaleEquation, Prod.mk.injEq, true_and]
  ring

theorem dropColumn_scale (c : ℚ) (r : Equation) :
    dropColumn (scaleEquation c r) = scaleEquation c (dropColumn r) := rfl

theorem solveGauss_scale (c : ℚ) (n : Nat) (rows : List Equation) :
    solveGauss n (rows.map (scaleEquation c)) = (solveGauss n rows).map (fun v => c * v) := by
  induction n generalizing rows with
  | zero => simp [solveGauss]
  | succ n ih =>
    simp only [solveGauss, findPivot_scale]
    cases hp : findPivot rows with
    | none =>
      have h : (rows.map (scaleEquation c)).map dropColumn =
          (rows.map dropColumn).map (scaleEquation c) := by
        simp [List.map_map, Function.comp_def, dropColumn_scale]
      simp only [Option.map_none', h, ih, List.map_cons, mul_zero]
    | some po =>
      have h : (po.2.map (scaleEquation c)).map (eliminate (scaleEquation c po.1)) =
          (po.2.map (eliminate po.1)).map (scaleEquation c) := by
        simp [List.map_map, Function.comp_def, eliminate_scale]
      simp only [Option.map_some', h, ih, List.map_cons, dot_scale_right]
      congr 1
      simp only [scaleEquation]
      ring

theorem leastSquares_scale (c : ℚ) (A : List (List ℚ)) (b : List ℚ) :
    leastSquares A (b.map (fun v => c * v)) = (leastSquares A b).map (fun v => c * v) := by
  simp only [leastSquares, normalRhs_scale, zip_scale, solveGauss_scale]

theorem scatter_scale (c : ℚ) (global : List ℚ) (is : List Nat) (x : List ℚ) :
    scatter (global.map (fun v => c * v)) is (x.map (fun v => c * v)) =
      (scatter global is x).map (fun v => c * v) := by
  induction is generalizing global x with
  | nil => simp [scatter]
  | cons i is ih =>
    cases x with
    | nil => simp [scatter]
    | cons v x =>
      simp only [List.map_cons, scatter]
      rw [← ih, List.map_set]

theorem extrapolateElement_derived (loc_asm : LocalAssemblerData) (cache cache' : List ℚ) :
    LocalLinearLeastSquaresExtrapolator.extrapolateElement loc_asm
        LocalAssemblerData.getDerivedQuantity cache' =
      match LocalLinearLeastSquaresExtrapolator.extrapolateElement loc_asm
        LocalAssemblerData.getStoredQuantity cache with
      | Except.error err => Except.error err
      | Except.ok r =>
        Except.ok (r.1.map (fun v => 2 * v), loc_asm.int_pt_values.map (fun v => 2 * v)) := by
  simp only [LocalLinearLeastSquaresExtrapolator.extrapolateElement, getDerivedQuantity_eq,
    LocalAssemblerData.getStoredQuantity, List.length_map]
  cases designMatrix loc_asm loc_asm.int_pt_values.length with
  | error err => rfl
  | ok A => simp only [leastSquares_scale]

theorem extrapolateLoop_derived (dof_table : LocalToGlobalIndexMap)
    (las : List (Option LocalAssemblerData)) (i : Nat) (global : List ℚ)
    (locals locals' : List (List ℚ)) (cache cache' : List ℚ) :
    Except.map (fun r => r.1)
        (LocalLinearLeastSquaresExtrapolator.extrapolateLoop dof_table
          LocalAssemblerData.getDerivedQuantity i las (global.map (fun v => 2 * v)) locals' cache') =
      Except.map (fun r => r.1.map (fun v => 2 * v))
        (LocalLinearLeastSquaresExtrapolator.extrapolateLoop dof_table
          LocalAssemblerData.getStoredQuantity i las global locals cache) := by
  induction las generalizing i global locals locals' cache cache' with
  | nil => simp [LocalLinearLeastSquaresExtrapolator.extrapolateLoop, Except.map]
  | cons la rest ih =>
    cases la with
    | none => simp [LocalLinearLeastSquaresExtrapolator.extrapolateLoop, Except.map]
    | some loc_asm =>
      simp only [LocalLinearLeastSquaresExtrapolator.extrapolateLoop]
      rw [extrapolateElement_derived loc_asm cache cache']
      cases LocalLinearLeastSquaresExtrapolator.extrapolateElement loc_asm
        LocalAssemblerData.getStoredQuantity cache with
      | error err => simp [Except.map]
      | ok r =>
        simp only []
        cases dof_table.indices i with
        | error err => simp [Except.map]
        | ok global_indices =>
          simp only []
          rw [scatter_scale]
          exact ih _ _ _ _ _ _

theorem residualsLoop_derived (las : List (Option LocalAssemblerData))
    (locals locals' : List (List ℚ)) (cache cache' : List ℚ) :
    Except.map (fun r => r.1.length)
        (LocalLinearLeastSquaresExtrapolator.residualsLoop
          LocalAssemblerData.getDerivedQuantity las locals' cache') =
      Except.map (fun r => r.1.length)
        (LocalLinearLeastSquaresExtrapolator.residualsLoop
          LocalAssemblerData.getStoredQuantity las locals cache) := by
  induction las generalizing locals locals' cache cache' with
  | nil => simp [LocalLinearLeastSquaresExtrapolator.residualsLoop, Except.map]
  | cons la rest ih =>
    cases la with
    | none => simp [LocalLinearLeastSquaresExtrapolator.residualsLoop, Except.map]
    | some loc_asm =>
      simp only [LocalLinearLeastSquaresExtrapolator.residualsLoop, getDerivedQuantity_eq,
        LocalAssemblerData.getStoredQuantity, List.length_map]
      cases designMatrix loc_asm loc_asm.int_pt_values.length with
      | error err => simp [Except.map]
      | ok A =>
        simp only []
        have h := ih locals.tail locals'.tail cache (loc_asm.int_pt_values.map (fun v => 2 * v))
        revert h
        cases LocalLinearLeastSquaresExtrapolator.residualsLoop
            LocalAssemblerData.getDerivedQuantity rest locals'.tail
            (loc_asm.int_pt_values.map (fun v => 2 * v)) <;>
          cases LocalLinearLeastSquaresExtrapolator.residualsLoop
            LocalAssemblerData.getStoredQuantity rest locals.tail cache <;>
          simp [Except.map]

/-- C2 (derived-quantity scaling): over the same local assemblers and DOF table,
extrapolating the derived quantity `2·q` (`getDerivedQuantity`) gives the nodal vector
`2·x`, where `x` is the nodal vector extrapolated from the stored quantity `q`
(`getStoredQuantity`); one extrapolation aborts exactly when the other does. -/
theorem derived_quantity_scaling (pcs pcs' : TestProcess)
    (h_asm : pcs'.local_assemblers = pcs.local_assemblers)
    (h_dof : pcs'.extrapolator.dof_table = pcs.extrapolator.dof_table) :
    Except.map (fun r => r.2.1) (pcs'.extrapolate LocalAssemblerData.getDerivedQuantity) =
      Except.map (fun r => r.2.1.map (fun v => 2 * v))
        (pcs.extrapolate LocalAssemblerData.getStoredQuantity) := by
  have hloop := extrapolateLoop_derived pcs.extrapolator.dof_table pcs.local_assemblers 0
    (List.replicate pcs.extrapolator.dof_table.dofSize 0) [] []
    pcs.extrapolator.integration_point_values_cache
    pcs'.extrapolator.integration_point_values_cache
  simp only [List.map_replicate, mul_zero] at hloop
  simp only [TestProcess.extrapolate, LocalLinearLeastSquaresExtrapolator.extrapolate,
    LocalLinearLeastSquaresExtrapolator.calculateResiduals, makeExtrapolatable, h_asm, h_dof,
    LocalLinearLeastSquaresExtrapolator.getNodalValues]
  revert hloop
  cases h1 : LocalLinearLeastSquaresExtrapolator.extrapolateLoop pcs.extrapolator.dof_table
      LocalAssemblerData.getDerivedQuantity 0 pcs.local_assemblers
      (List.replicate pcs.extrapolator.dof_table.dofSize 0) []
      pcs'.extrapolator.integration_point_values_cache with
  | error e1 =>
    cases h2 : LocalLinearLeastSquaresExtrapolator.extrapolateLoop pcs.extrapolator.dof_table
        LocalAssemblerData.getStoredQuantity 0 pcs.local_assemblers
        (List.replicate pcs.extrapolator.dof_table.dofSize 0) []
        pcs.extrapolator.integration_point_values_cache with
    | error e2 => simp [Except.map]
    | ok r2 => simp [Except.map]
  | ok r1 =>
    cases h2 : LocalLinearLeastSquaresExtrapolator.extrapolateLoop pcs.extrapolator.dof_table
        LocalAssemblerData.getStoredQuantity 0 pcs.local_assemblers
        (List.replicate pcs.extrapolator.dof_table.dofSize 0) []
        pcs.extrapolator.integration_point_values_cache with
    | error e2 => simp [Except.map]
    | ok r2 =>
      intro hloop
      have hr : r1.1 = r2.1.map (fun v => 2 * v) := by
        simpa [Except.map] using hloop
      simp only []
      have hres := residualsLoop_derived pcs.local_assemblers r2.2.1 r1.2.1 r2.2.2 r1.2.2
      revert hres
      cases LocalLinearLeastSquaresExtrapolator.residualsLoop
          LocalAssemblerData.getDerivedQuantity pcs.local_assemblers r1.2.1 r1.2.2 <;>
        cases LocalLinearLeastSquaresExtrapolator.residualsLoop
          LocalAssemblerData.getStoredQuantity pcs.local_assemblers r2.2.1 r2.2.2 <;>
        simp [Except.map, hr]

/-- Witness for C2: two states of a process over the example mesh, the second with the
buffers of an earlier extrapolation. -/
theorem derived_quantity_scaling_witness :
    exampleProcessLater.local_assemblers = exampleProcess.local_assemblers ∧
    exampleProcessLater.extrapolator.dof_table = exampleProcess.extrapolator.dof_table ∧
    Except.map (fun r => r.2.1)
        (exampleProcessLater.extrapolate LocalAssemblerData.getDerivedQuantity) =
      Except.map (fun r => r.2.1.map (fun v => 2 * v))
        (exampleProcess.extrapolate LocalAssemblerData.getStoredQuantity) :=
  ⟨rfl, rfl, derived_quantity_scaling exampleProcess exampleProcessLater rfl rfl⟩

/-! ## The transform executor fills slot `i` from element `i` -/

theorem resize_length {β : Type} (v : List (Option β)) (n : Nat) : (resize v n).length = n := by
  simp only [resize, List.length_append, List.length_take, List.length_replicate]
  omega

theorem transformLoop_ok {α β : Type} (G : α → β) (f : Nat → α → Except FatalError β)
    (cs : List α) (hf : ∀ i item, cs[i]? = some item → f i item = Except.ok (G item))
    (visit : List Nat) (o : List (Option β)) (hv : ∀ i ∈ visit, i < cs.length) :
    ∃ o1, transformLoop f cs visit o = Except.ok o1 ∧ o1.length = o.length ∧
      ∀ j, o1[j]? =
        if j ∈ visit ∧ j < o.length then (cs[j]?).map (fun item => some (G item)) else o[j]? := by
  induction visit generalizing o with
  | nil => exact ⟨o, rfl, rfl, fun j => by simp⟩
  | cons i visit ih =>
    have hi : i < cs.length := hv i (List.mem_cons_self _ _)
    have hci : cs[i]? = some cs[i] := List.getElem?_eq_getElem hi
    obtain ⟨o1, h1, h2, h3⟩ := ih (o.set i (some (G cs[i])))
      (fun k hk => hv k (List.mem_cons_of_mem _ hk))
    refine ⟨o1, ?_, ?_, ?_⟩
    · simp only [transformLoop, List.get?_eq_getElem?, hci, hf i cs[i] hci]
      exact h1
    · rw [h2, List.length_set]
    · intro j
      rw [h3 j, List.length_set, List.getElem?_set]
      by_cases hjl : j < o.length
      · by_cases hji : i = j
        · subst hji
          simp [hjl, hci]
        · have hji2 : ¬ j = i := fun h => hji h.symm
          by_cases hjv : j ∈ visit <;> simp [hjl, hji, hji2, hjv]
      · have hnone : o[j]? = none := List.getElem?_eq_none (by omega)
        simp only [hjl, and_false, if_false, hnone]
        split_ifs <;> first | rfl | omega

theorem transformLoop_error {α β : Type} (E : FatalError) (f : Nat → α → Except FatalError β)
    (cs : List α) (hf : ∀ i item, (∃ r, f i item = Except.ok r) ∨ f i item = Except.error E)
    (visit : List Nat) (o : List (Option β)) (hv : ∀ i ∈ visit, i < cs.length)
    (hbad : ∃ i ∈ visit, ∃ item, cs[i]? = some item ∧ f i item = Except.error E) :
    transformLoop f cs visit o = Except.error E := by
  induction visit generalizing o with
  | nil =>
    obtain ⟨i, hi, _⟩ := hbad
    cases hi
  | cons i visit ih =>
    have hi : i < cs.length := hv i (List.mem_cons_self _ _)
    have hci : cs[i]? = some cs[i] := List.getElem?_eq_getElem hi
    simp only [transformLoop, List.get?_eq_getElem?, hci]
    rcases hf i cs[i] with ⟨r, hr⟩ | herr
    · rw [hr]
      simp only []
      apply ih _ (fun k hk => hv k (List.mem_cons_of_mem _ hk))
      obtain ⟨k, hk, item, hitem, hfk⟩ := hbad
      rcases List.mem_cons.mp hk with hki | hkv
      · subst hki
        rw [hci] at hitem
        cases hitem
        rw [hr] at hfk
        cases hfk
      · exact ⟨k, hkv, item, hitem, hfk⟩
    · rw [herr]

theorem transformDereferenced_eq {α β : Type} (P : α → Bool) (G : α → β) (E : FatalError)
    (f : Nat → α → Except FatalError β)
    (hf : ∀ i item, f i item = if P item then Except.ok (G item) else Except.error E)
    (cs : List α) (o : List (Option β)) (ho : o.length = cs.length) (visit : Schedule cs.length) :
    transformDereferenced f cs o visit =
      if ∀ item ∈ cs, P item = true then Except.ok (cs.map (fun item => some (G item)))
      else Except.error E := by
  have hv : ∀ i ∈ visit.order, i < cs.length := fun i hi =>
    List.mem_range.mp ((visit.complete.mem_iff).mp hi)
  simp only [transformDereferenced, ho, if_true]
  by_cases hall : ∀ item ∈ cs, P item = true
  · rw [if_pos hall]
    have hf2 : ∀ i item, cs[i]? = some item → f i item = Except.ok (G item) := by
      intro i item hitem
      rw [hf i item, if_pos (hall item (List.getElem?_mem hitem))]
    obtain ⟨o1, h1, h2, h3⟩ := transformLoop_ok G f cs hf2 visit.order o hv
    rw [h1]
    congr 1
    apply List.ext_getElem?
    intro j
    rw [h3 j, List.getElem?_map]
    by_cases hj : j < cs.length
    · have hjv : j ∈ visit.order := (visit.complete.mem_iff).mpr (List.mem_range.mpr hj)
      rw [if_pos ⟨hjv, by omega⟩]
    · have hjo : ¬ j < o.length := by omega
      simp only [hjo, and_false, if_false]
      rw [List.getElem?_eq_none (by omega), List.getElem?_eq_none (by omega)]
      rfl
  · rw [if_neg hall]
    apply transformLoop_error E f cs _ visit.order o hv
    · push_neg at hall
      obtain ⟨item, hmem, hP⟩ := hall
      obtain ⟨i, hi, hget⟩ := List.getElem_of_mem hmem
      refine ⟨i, (visit.complete.mem_iff).mpr (List.mem_range.mpr hi), item, ?_, ?_⟩
      · rw [List.getElem?_eq_getElem hi, hget]
      · rw [hf i item]
        simp [hP]
    · intro i item
      rw [hf i item]
      by_cases hP : P item = true
      · exact Or.inl ⟨G item, by simp [hP]⟩
      · exact Or.inr (by simp [hP])

theorem createLocalAssemblers_eq (kernel : ShapeFunctionKernel) (GlobalDim : Nat)
    (self : TestProcess) (mesh : Mesh) (visit : Schedule mesh.elements.length) :
    TestProcess.createLocalAssemblers kernel GlobalDim self mesh visit =
      if ∀ e ∈ mesh.elements, kernel.supported GlobalDim e = true then
        Except.ok { self with
          local_assemblers := mesh.elements.map (fun e =>
            some (LocalAssemblerData.construct (kernel.initShapeMatrices GlobalDim) e
              (e.nodes.length * self.dof_table.getNumberOfComponents) self.integration_order)) }
      else Except.error FatalError.unsupportedElement := by
  simp only [TestProcess.createLocalAssemblers]
  have h := transformDereferenced_eq (fun e => kernel.supported GlobalDim e)
    (fun e => LocalAssemblerData.construct (kernel.initShapeMatrices GlobalDim) e
      (e.nodes.length * self.dof_table.getNumberOfComponents) self.integration_order)
    FatalError.unsupportedElement
    (LocalDataInitializer.call kernel { global_dim := GlobalDim, dof_table := self.dof_table }
      self.integration_order)
    (fun i item => rfl) mesh.elements (resize self.local_assemblers mesh.getNumberOfElements)
    (resize_length _ _) visit
  rw [h]
  split_ifs <;> rfl

theorem createAssemblers_eq (kernel : ShapeFunctionKernel) (self : TestProcess) (mesh : Mesh)
    (visit : Schedule mesh.elements.length)
    (h_dim : mesh.dimension = 1 ∨ mesh.dimension = 2 ∨ mesh.dimension = 3) :
    TestProcess.createAssemblers kernel self mesh visit =
      if ∀ e ∈ mesh.elements, kernel.supported mesh.dimension e = true then
        Except.ok { self with
          local_assemblers := mesh.elements.map (fun e =>
            some (LocalAssemblerData.construct (kernel.initShapeMatrices mesh.dimension) e
              (e.nodes.length * self.dof_table.getNumberOfComponents) self.integration_order)) }
      else Except.error FatalError.unsupportedElement := by
  rcases h_dim with h | h | h <;>
    simp only [TestProcess.createAssemblers, h, createLocalAssemblers_eq]

/-- C6 (element-to-slot order of assembler construction): for a mesh of dimension 1, 2 or
3 and whatever order the executor visits the elements in, `createAssemblers` leaves one
local assembler per mesh element, slot `i` holding the assembler constructed from
element `i` with the process's integration order; it aborts only if the factory does
not support some element. -/
theorem createAssemblers_slot_order (kernel : ShapeFunctionKernel) (self : TestProcess)
    (mesh : Mesh) (visit : Schedule mesh.elements.length)
    (h_dim : mesh.dimension = 1 ∨ mesh.dimension = 2 ∨ mesh.dimension = 3) :
    TestProcess.createAssemblers kernel self mesh visit =
      if ∀ e ∈ mesh.elements, kernel.supported mesh.dimension e = true then
        Except.ok { self with
          local_assemblers := mesh.elements.map (fun e =>
            some (LocalAssemblerData.construct (kernel.initShapeMatrices mesh.dimension) e
              (e.nodes.length * self.dof_table.getNumberOfComponents) self.integration_order)) }
      else Except.error FatalError.unsupportedElement :=
  createAssemblers_eq kernel self mesh visit h_dim

/-- Witness for C6: the example mesh of dimension 1, its two elements visited in reverse
order. -/
theorem createAssemblers_slot_order_witness :
    (exampleMesh.dimension = 1 ∨ exampleMesh.dimension = 2 ∨ exampleMesh.dimension = 3) ∧
    TestProcess.createAssemblers exampleKernel exampleProcess exampleMesh exampleSchedule =
      if ∀ e ∈ exampleMesh.elements, exampleKernel.supported exampleMesh.dimension e = true then
        Except.ok { exampleProcess with
          local_assemblers := exampleMesh.elements.map (fun e =>
            some (LocalAssemblerData.construct
              (exampleKernel.initShapeMatrices exampleMesh.dimension) e
              (e.nodes.length * exampleProcess.dof_table.getNumberOfComponents)
              exampleProcess.integration_order)) }
      else Except.error FatalError.unsupportedElement :=
  ⟨Or.inl rfl,
   createAssemblers_slot_order exampleKernel exampleProcess exampleMesh exampleSchedule
     (Or.inl rfl)⟩

/-! ## The DOF table of the test process -/

theorem dofTable_dofs (mesh : Mesh) :
    (TestProcess.dofTable mesh).dofs = (List.range mesh.numberOfNodes).map (fun n => (n, 0)) := by
  simp [TestProcess.dofTable, LocalToGlobalIndexMap.dofs, LocalToGlobalIndexMap.dofsByComponent,
    MeshSubsets.nodeIds, Mesh.getNodes]

theorem dofTable_dofSize (mesh : Mesh) :
    (TestProcess.dofTable mesh).dofSize = mesh.numberOfNodes := by
  simp [LocalToGlobalIndexMap.dofSize, dofTable_dofs]

theorem dofTable_elements (mesh : Mesh) :
    (TestProcess.dofTable mesh).elements = mesh.elements := by
  simp [TestProcess.dofTable, LocalToGlobalIndexMap.elements, MeshSubsets.elements]

theorem indexOf_map_range' (n s k : Nat) (hk : k < n) :
    List.indexOf (s + k, 0) ((List.range' s n).map (fun j => (j, 0))) = k := by
  induction n generalizing s k with
  | zero => omega
  | succ n ih =>
    cases k with
    | zero => simp [List.range'_succ, List.indexOf_cons]
    | succ k =>
      have h := ih (s + 1) k (by omega)
      have hs : s + 1 + k = s + (k + 1) := by omega
      rw [hs] at h
      have hne : ((s, 0) == (s + (k + 1), 0)) = false := by
        rw [beq_eq_false_iff_ne]
        intro heq
        have := (Prod.mk.inj heq).1
        omega
      simp [List.range'_succ, List.indexOf_cons, h, hne]

theorem indexOf_dofs (n k : Nat) (hk : k < n) :
    List.indexOf (k, 0) ((List.range n).map (fun j => (j, 0))) = k := by
  have h := indexOf_map_range' n 0 k hk
  rw [Nat.zero_add, ← List.range_eq_range'] at h
  exact h

theorem dofTable_getGlobalIndex (mesh : Mesh) (node comp : Nat) :
    (TestProcess.dofTable mesh).getGlobalIndex node comp =
      if node < mesh.numberOfNodes ∧ comp = 0 then Except.ok node
      else Except.error FatalError.missingDof := by
  simp only [LocalToGlobalIndexMap.getGlobalIndex, dofTable_dofs]
  by_cases h : node < mesh.numberOfNodes ∧ comp = 0
  · obtain ⟨h1, h2⟩ := h
    subst h2
    have hmem : (node, 0) ∈ (List.range mesh.numberOfNodes).map (fun n => (n, 0)) :=
      List.mem_map.mpr ⟨node, List.mem_range.mpr h1, rfl⟩
    rw [if_pos hmem, if_pos ⟨h1, rfl⟩]
    rw [indexOf_dofs mesh.numberOfNodes node h1]
  · have hmem : (node, comp) ∉ (List.range mesh.numberOfNodes).map (fun n => (n, 0)) := by
      intro hm
      obtain ⟨k, hk, hkeq⟩ := List.mem_map.mp hm
      have h1 := (Prod.mk.inj hkeq).1
      have h2 := (Prod.mk.inj hkeq).2
      exact h ⟨by rw [← h1]; exact List.mem_range.mp hk, h2.symm⟩
    rw [if_neg hmem, if_neg h]

theorem dofTable_nodeIndices (mesh : Mesh) (nodes : List Nat)
    (h : ∀ n ∈ nodes, n < mesh.numberOfNodes) :
    (TestProcess.dofTable mesh).nodeIndices 0 nodes = Except.ok nodes := by
  induction nodes with
  | nil => rfl
  | cons n rest ih =>
    have hn : n < mesh.numberOfNodes := h n (List.mem_cons_self _ _)
    simp only [LocalToGlobalIndexMap.nodeIndices, dofTable_getGlobalIndex, hn, true_and,
      if_true, ih (fun k hk => h k (List.mem_cons_of_mem _ hk))]

theorem dofTable_indices (mesh : Mesh) (id : Nat) :
    (TestProcess.dofTable mesh).indices id =
      match mesh.elements[id]? with
      | none => Except.error FatalError.missingDof
      | some e => Except.ok e.nodes := by
  simp only [LocalToGlobalIndexMap.indices, dofTable_elements, List.get?_eq_getElem?]
  cases he : mesh.elements[id]? with
  | none => rfl
  | some e =>
    have hvalid := mesh.nodes_valid e (List.getElem?_mem he)
    simp only [TestProcess.dofTable, LocalToGlobalIndexMap.elementIndices]
    have h := dofTable_nodeIndices mesh e.nodes hvalid
    simp only [TestProcess.dofTable] at h
    rw [h]
    simp

theorem selector_length (sel : QuantitySelector) (a : LocalAssemblerData) (cache : List ℚ) :
    (sel.method a cache).1.length = a.int_pt_values.length := by
  cases sel with
  | getStoredQuantity => rfl
  | getDerivedQuantity =>
    simp [QuantitySelector.method, getDerivedQuantity_eq]

theorem designRows_ok (a : LocalAssemblerData) (ip count : Nat)
    (h : ip + count ≤ a.shape_matrices.length) :
    ∃ rows, designRows a ip count = Except.ok rows := by
  induction count generalizing ip with
  | zero => exact ⟨[], rfl⟩
  | succ count ih =>
    obtain ⟨rows, hrows⟩ := ih (ip + 1) (by omega)
    have hip : ip < a.shape_matrices.length := by omega
    refine ⟨a.shape_matrices[ip].N :: rows, ?_⟩
    simp only [designRows, LocalAssemblerData.getShapeMatrix, List.get?_eq_getElem?,
      List.getElem?_eq_getElem hip, hrows]

theorem scatter_length (global : List ℚ) (is : List Nat) (x : List ℚ) :
    (scatter global is x).length = global.length := by
  induction is generalizing global x with
  | nil => simp [scatter]
  | cons i is ih =>
    cases x with
    | nil => simp [scatter]
    | cons v x => simp [scatter, ih]

theorem extrapolateLoop_ok (dof_table : LocalToGlobalIndexMap) (sel : QuantitySelector)
    (las : List (Option LocalAssemblerData)) (i : Nat) (global : List ℚ)
    (locals : List (List ℚ)) (cache : List ℚ)
    (h_asm : ∀ la ∈ las, ∃ a, la = some a ∧ a.int_pt_values.length = a.shape_matrices.length)
    (h_idx : ∀ k, k < las.length → ∃ is, dof_table.indices (i + k) = Except.ok is) :
    ∃ r, LocalLinearLeastSquaresExtrapolator.extrapolateLoop dof_table sel.method i las global
        locals cache = Except.ok r ∧
      r.1.length = global.length ∧ r.2.1.length = locals.length + las.length := by
  induction las generalizing i global locals cache with
  | nil => exact ⟨(global, locals, cache), rfl, rfl, rfl⟩
  | cons la rest ih =>
    obtain ⟨a, hla, hlen⟩ := h_asm la (List.mem_cons_self _ _)
    subst hla
    obtain ⟨A, hA⟩ := designRows_ok a 0 (sel.method a cache).1.length
      (by rw [selector_length, hlen]; omega)
    obtain ⟨is, his⟩ := h_idx 0 (by simp)
    rw [Nat.add_zero] at his
    obtain ⟨r, hr, hr1, hr2⟩ := ih (i + 1) (scatter global is (leastSquares A (sel.method a cache).1))
      (locals ++ [leastSquares A (sel.method a cache).1]) (sel.method a cache).2
      (fun la hla => h_asm la (List.mem_cons_of_mem _ hla))
      (fun k hk => by
        have := h_idx (k + 1) (by simpa using hk)
        rwa [show i + (k + 1) = i + 1 + k by omega] at this)
    refine ⟨r, ?_, ?_, ?_⟩
    · simp only [LocalLinearLeastSquaresExtrapolator.extrapolateLoop,
        LocalLinearLeastSquaresExtrapolator.extrapolateElement, designMatrix, hA, his]
      exact hr
    · rw [hr1, scatter_length]
    · rw [hr2]
      simp
      omega

theorem residualsLoop_ok (sel : QuantitySelector) (las : List (Option LocalAssemblerData))
    (locals : List (List ℚ)) (cache : List ℚ)
    (h_asm : ∀ la ∈ las, ∃ a, la = some a ∧ a.int_pt_values.length = a.shape_matrices.length) :
    ∃ r, LocalLinearLeastSquaresExtrapolator.residualsLoop sel.method las locals cache =
        Except.ok r ∧ r.1.length = las.length := by
  induction las generalizing locals cache with
  | nil => exact ⟨([], cache), rfl, rfl⟩
  | cons la rest ih =>
    obtain ⟨a, hla, hlen⟩ := h_asm la (List.mem_cons_self _ _)
    subst hla
    obtain ⟨A, hA⟩ := designRows_ok a 0 (sel.method a cache).1.length
      (by rw [selector_length, hlen]; omega)
    obtain ⟨r, hr, hr1⟩ := ih locals.tail (sel.method a cache).2
      (fun la hla => h_asm la (List.mem_cons_of_mem _ hla))
    refine ⟨(residualNorm A (locals.headD []) (sel.method a cache).1 :: r.1, r.2), ?_, ?_⟩
    · simp only [LocalLinearLeastSquaresExtrapolator.residualsLoop, designMatrix, hA, hr]
    · simp [hr1]

theorem extrapolate_consistent (mesh : Mesh) (pcs : TestProcess)
    (h : TestProcess.Consistent mesh pcs) (sel : QuantitySelector) :
    ∃ r, pcs.extrapolate sel.method = Except.ok r ∧
      r.2.1.length = mesh.numberOfNodes ∧ r.2.2.length = mesh.getNumberOfElements ∧
      TestProcess.Consistent mesh r.1 := by
  obtain ⟨h1, h2, h3, h4⟩ := h
  have h_idx : ∀ k, k < pcs.local_assemblers.length →
      ∃ is, pcs.extrapolator.dof_table.indices (0 + k) = Except.ok is := by
    intro k hk
    rw [h2, dofTable_indices, Nat.zero_add, List.getElem?_eq_getElem (by omega)]
    exact ⟨_, rfl⟩
  obtain ⟨r, hr, hr1, hr2⟩ := extrapolateLoop_ok pcs.extrapolator.dof_table sel
    pcs.local_assemblers 0 (List.replicate pcs.extrapolator.dof_table.dofSize 0) []
    pcs.extrapolator.integration_point_values_cache h4 h_idx
  obtain ⟨q, hq, hq1⟩ := residualsLoop_ok sel pcs.local_assemblers r.2.1 r.2.2 h4
  refine ⟨({ pcs with
      extrapolator :=
        { pcs.extrapolator with
          nodal_values := r.1, local_nodal_values := r.2.1, residuals := q.1
          integration_point_values_cache := q.2 } }, r.1, q.1), ?_, ?_, ?_, ?_⟩
  · simp only [TestProcess.extrapolate, LocalLinearLeastSquaresExtrapolator.extrapolate,
      LocalLinearLeastSquaresExtrapolator.calculateResiduals, makeExtrapolatable, hr, hq,
      LocalLinearLeastSquaresExtrapolator.getNodalValues,
      LocalLinearLeastSquaresExtrapolator.getElementResiduals]
  · show r.1.length = mesh.numberOfNodes
    rw [hr1, List.length_replicate, h2, dofTable_dofSize]
  · show q.1.length = mesh.getNumberOfElements
    rw [hq1, h3]
    rfl
  · exact ⟨h1, h2, h3, h4⟩

theorem construct_consistent (kernel : ShapeFunctionKernel) (mesh : Mesh)
    (integration_order : Nat) (visit : Schedule mesh.elements.length) (pcs : TestProcess)
    (h : TestProcess.construct kernel mesh integration_order visit = Except.ok pcs) :
    TestProcess.Consistent mesh pcs := by
  simp only [TestProcess.construct, TestProcess.createAssemblers] at h
  have key : ∀ GlobalDim,
      TestProcess.createLocalAssemblers kernel GlobalDim
        { integration_order := integration_order
          mesh_subset_all_nodes := { mesh := mesh, nodes := mesh.getNodes }
          dof_table := TestProcess.dofTable mesh
          local_assemblers := []
          extrapolator := LocalLinearLeastSquaresExtrapolator.construct
            (TestProcess.dofTable mesh) } mesh visit = Except.ok pcs →
      TestProcess.Consistent mesh pcs := by
    intro GlobalDim hc
    rw [createLocalAssemblers_eq] at hc
    split_ifs at hc
    cases hc
    refine ⟨rfl, rfl, by simp, ?_⟩
    intro la hla
    obtain ⟨e, _, he⟩ := List.mem_map.mp hla
    exact ⟨_, he.symm, by simp [LocalAssemblerData.construct]⟩
  split at h
  · exact key 1 h
  · exact key 2 h
  · exact key 3 h
  · cases h

theorem interpolateLoop_length (local_nodal_values : List ℚ) (ip : Nat)
    (shape_matrices : List ShapeMatrices) (interpolated_values : List ℚ) :
    (interpolateLoop local_nodal_values ip shape_matrices interpolated_values).length =
      interpolated_values.length := by
  induction shape_matrices generalizing ip interpolated_values with
  | nil => rfl
  | cons sm rest ih => simp [interpolateLoop, ih]

theorem executeLoop_preserves {α : Type} (Q : α → Prop) (f : Nat → α → Except FatalError α)
    (hf : ∀ i item item1, Q item → f i item = Except.ok item1 → Q item1)
    (visit : List Nat) (cs cs1 : List (Option α))
    (hQ : ∀ la ∈ cs, ∃ a, la = some a ∧ Q a)
    (h : executeLoop f visit cs = Except.ok cs1) :
    cs1.length = cs.length ∧ ∀ la ∈ cs1, ∃ a, la = some a ∧ Q a := by
  induction visit generalizing cs with
  | nil =>
    simp only [executeLoop] at h
    cases h
    exact ⟨rfl, hQ⟩
  | cons i visit ih =>
    simp only [executeLoop] at h
    split at h
    · cases h
    · cases h
    · rename_i item hitem
      split at h
      · cases h
      · rename_i item1 hitem1
        have hQitem : Q item := by
          obtain ⟨a, ha, hQa⟩ := hQ (some item) (List.get?_mem hitem)
          cases ha
          exact hQa
        have hQ1 : ∀ la ∈ cs.set i (some item1), ∃ a, la = some a ∧ Q a := by
          intro la hla
          rcases List.mem_or_eq_of_mem_set hla with hmem | heq
          · exact hQ la hmem
          · exact ⟨item1, heq, hf i item item1 hQitem hitem1⟩
        obtain ⟨hl, hall⟩ := ih (cs.set i (some item1)) hQ1 h
        exact ⟨by rw [hl, List.length_set], hall⟩

theorem interpolate_consistent (mesh : Mesh) (pcs pcs1 : TestProcess) (x : List ℚ)
    (visit : Schedule pcs.local_assemblers.length)
    (h : TestProcess.Consistent mesh pcs)
    (hi : pcs.interpolateNodalValuesToIntegrationPoints x visit = Except.ok pcs1) :
    TestProcess.Consistent mesh pcs1 := by
  obtain ⟨h1, h2, h3, h4⟩ := h
  simp only [TestProcess.interpolateNodalValuesToIntegrationPoints, executeDereferenced] at hi
  split at hi
  · cases hi
  · rename_i las hlas
    cases hi
    have hp := executeLoop_preserves
      (fun a : LocalAssemblerData => a.int_pt_values.length = a.shape_matrices.length) _
      (by
        intro i item item1 hQ hf
        split at hf
        · cases hf
        · split at hf
          · cases hf
          · cases hf
            simp only [LocalAssemblerData.interpolateNodalValuesToIntegrationPoints,
              OGS.interpolateNodalValuesToIntegrationPoints, interpolateLoop_length]
            exact hQ)
      visit.order pcs.local_assemblers las h4 hlas
    exact ⟨h1, h2, by simp only []; rw [hp.1, h3], hp.2⟩

theorem reachable_consistent (kernel : ShapeFunctionKernel) (mesh : Mesh)
    (integration_order : Nat) (pcs : TestProcess)
    (h : TestProcess.Reachable kernel mesh integration_order pcs) :
    TestProcess.Consistent mesh pcs := by
  induction h with
  | construct visit pcs hc => exact construct_consistent kernel mesh integration_order visit pcs hc
  | interpolate pcs pcs1 x visit _ hi ih => exact interpolate_consistent mesh pcs pcs1 x visit ih hi
  | extrapolate pcs method r _ he ih =>
    obtain ⟨r1, hr1, _, _, hcons⟩ := extrapolate_consistent mesh pcs ih method
    rw [hr1] at he
    cases he
    exact hcons

/-- C4 (output sizes): in every state of a test process built on a mesh, and for every
quantity selector, `extrapolate` (extrapolation followed by the residual calculation)
returns a nodal vector with one entry per mesh node and a residual vector with one
entry per mesh element, and a second extrapolation on the resulting state returns
vectors of these sizes again. -/
theorem extrapolate_output_sizes (kernel : ShapeFunctionKernel) (mesh : Mesh)
    (integration_order : Nat) (pcs : TestProcess)
    (h : TestProcess.Reachable kernel mesh integration_order pcs)
    (method1 method2 : QuantitySelector) :
    ∃ r1 r2, pcs.extrapolate method1.method = Except.ok r1 ∧
      r1.2.1.length = mesh.numberOfNodes ∧ r1.2.2.length = mesh.getNumberOfElements ∧
      r1.1.extrapolate method2.method = Except.ok r2 ∧
      r2.2.1.length = mesh.numberOfNodes ∧ r2.2.2.length = mesh.getNumberOfElements := by
  obtain ⟨r1, hr1, hn1, he1, hc1⟩ :=
    extrapolate_consistent mesh pcs (reachable_consistent kernel mesh integration_order pcs h)
      method1
  obtain ⟨r2, hr2, hn2, he2, _⟩ := extrapolate_consistent mesh r1.1 hc1 method2
  exact ⟨r1, r2, hr1, hn1, he1, hr2, hn2, he2⟩

/-- Witness for C4: the process constructed over the example mesh, extrapolating the
stored and then the derived quantity. -/
theorem extrapolate_output_sizes_witness :
    TestProcess.Reachable exampleKernel exampleMesh 2 exampleConstructed ∧
    ∃ r1 r2,
      exampleConstructed.extrapolate QuantitySelector.getStoredQuantity.method = Except.ok r1 ∧
      r1.2.1.length = exampleMesh.numberOfNodes ∧
      r1.2.2.length = exampleMesh.getNumberOfElements ∧
      r1.1.extrapolate QuantitySelector.getDerivedQuantity.method = Except.ok r2 ∧
      r2.2.1.length = exampleMesh.numberOfNodes ∧
      r2.2.2.length = exampleMesh.getNumberOfElements :=
  ⟨TestProcess.Reachable.construct exampleSchedule exampleConstructed rfl,
   extrapolate_output_sizes exampleKernel exampleMesh 2 exampleConstructed
     (TestProcess.Reachable.construct exampleSchedule exampleConstructed rfl)
     QuantitySelector.getStoredQuantity QuantitySelector.getDerivedQuantity⟩

/-! ## Boundary condition factory -/

theorem readBoundaryConditions_ok {ConfigTree : Type} (api : ConfigTreeApi ConfigTree)
    (geometries : GEOObjects) (name : String) (n_components : Int)
    (entries : List ConfigTree) (bc_configs out : List (BoundaryConditionConfig ConfigTree))
    (h : ProcessVariable.readBoundaryConditions api geometries name n_components entries
      bc_configs = Except.ok out) :
    ∃ stored, out = bc_configs ++ stored ∧
      List.Forall₂ (ProcessVariable.Stores api geometries n_components) entries stored := by
  induction entries generalizing bc_configs with
  | nil =>
    simp only [ProcessVariable.readBoundaryConditions] at h
    cases h
    exact ⟨[], by simp, List.Forall₂.nil⟩
  | cons entry rest ih =>
    simp only [ProcessVariable.readBoundaryConditions] at h
    split at h
    · cases h
    · rename_i geometrical_set_name hset
      split at h
      · cases h
      · rename_i geometry_name hgeo
        split at h
        · cases h
        · rename_i geometry hobj
          split at h
          · cases h
          · rename_i component_id hcomp
            obtain ⟨stored, hout, hall⟩ := ih _ h
            refine ⟨{ config := entry, geometry := geometry, component_id := component_id } ::
              stored, by rw [hout]; simp, List.Forall₂.cons ?_ hall⟩
            exact ⟨rfl, ⟨geometrical_set_name, geometry_name, hset, hgeo, hobj⟩, Or.inl hcomp⟩
          · rename_i hcomp
            split at h
            · rename_i hn
              obtain ⟨stored, hout, hall⟩ := ih _ h
              refine ⟨{ config := entry, geometry := geometry, component_id := 0 } :: stored,
                by rw [hout]; simp, List.Forall₂.cons ?_ hall⟩
              exact ⟨rfl, ⟨geometrical_set_name, geometry_name, hset, hgeo, hobj⟩,
                Or.inr ⟨hcomp, hn, rfl⟩⟩
            · cases h

theorem construct_ok {ConfigTree IC : Type} (api : ConfigTreeApi ConfigTree)
    (ics : InitialConditionFactories ConfigTree IC) (config : ConfigTree) (mesh : Mesh)
    (geometries : GEOObjects) (pv : ProcessVariable ConfigTree IC)
    (h : ProcessVariable.construct api ics config mesh geometries = Except.ok pv) :
    api.getConfigParameterString config "name" = Except.ok pv.name ∧
    api.getConfigParameterInt config "components" = Except.ok pv.n_components ∧
    ProcessVariable.readBoundaryConditionsBlock api geometries config pv.name pv.n_components =
      Except.ok pv.bc_configs := by
  simp only [ProcessVariable.construct] at h
  split at h
  · cases h
  · rename_i name hname
    split at h
    · cases h
    · rename_i n_components hn
      split at h
      · cases h
      · split at h
        · cases h
        · rename_i bc_configs hbc
          cases h
          exact ⟨hname, hn, hbc⟩

theorem construct_stores {ConfigTree IC : Type} (api : ConfigTreeApi ConfigTree)
    (ics : InitialConditionFactories ConfigTree IC) (config : ConfigTree) (mesh : Mesh)
    (geometries : GEOObjects) (pv : ProcessVariable ConfigTree IC)
    (bcs_config : ConfigTree) (entries : List ConfigTree)
    (h : ProcessVariable.construct api ics config mesh geometries = Except.ok pv)
    (h_bcs : api.getConfigSubtreeOptional config "boundary_conditions" =
      Except.ok (some bcs_config))
    (h_entries : api.getConfigSubtreeList bcs_config "boundary_condition" = Except.ok entries) :
    List.Forall₂ (ProcessVariable.Stores api geometries pv.n_components) entries
      pv.bc_configs := by
  obtain ⟨_, _, hblock⟩ := construct_ok api ics config mesh geometries pv h
  simp only [ProcessVariable.readBoundaryConditionsBlock, h_bcs, h_entries] at hblock
  obtain ⟨stored, hout, hall⟩ := readBoundaryConditions_ok api geometries _ _ entries [] _ hblock
  rw [hout]
  exact hall

theorem except_error_of_not_ok {α : Type} (x : Except FatalError α)
    (h : ∀ a, x ≠ Except.ok a) : ∃ err, x = Except.error err := by
  cases x with
  | error err => exact ⟨err, rfl⟩
  | ok a => exact absurd rfl (h a)

theorem forall₂_exists_of_mem {α β : Type} (Rel : α → β → Prop) (l1 : List α) (l2 : List β)
    (h : List.Forall₂ Rel l1 l2) (a : α) (ha : a ∈ l1) : ∃ b ∈ l2, Rel a b := by
  induction h with
  | nil => cases ha
  | cons hab _ ih =>
    rcases List.mem_cons.mp ha with heq | hmem
    · subst heq
      exact ⟨_, List.mem_cons_self _ _, hab⟩
    · obtain ⟨b, hb, hR⟩ := ih hmem
      exact ⟨b, List.mem_cons_of_mem _ hb, hR⟩

theorem stores_map_config {ConfigTree : Type} (api : ConfigTreeApi ConfigTree)
    (geometries : GEOObjects) (n_components : Int) (entries : List ConfigTree)
    (stored : List (BoundaryConditionConfig ConfigTree))
    (h : List.Forall₂ (ProcessVariable.Stores api geometries n_components) entries stored) :
    stored.map (fun s => s.config) = entries := by
  induction h with
  | nil => rfl
  | cons hab _ ih => simp [ih, hab.1]

theorem readBoundaryConditions_of_stores {ConfigTree : Type} (api : ConfigTreeApi ConfigTree)
    (geometries : GEOObjects) (name : String) (n_components : Int)
    (entries : List ConfigTree) (stored : List (BoundaryConditionConfig ConfigTree))
    (h : List.Forall₂ (ProcessVariable.Stores api geometries n_components) entries stored)
    (bc_configs : List (BoundaryConditionConfig ConfigTree)) :
    ProcessVariable.readBoundaryConditions api geometries name n_components entries
      bc_configs = Except.ok (bc_configs ++ stored) := by
  induction h generalizing bc_configs with
  | nil => simp [ProcessVariable.readBoundaryConditions]
  | @cons entry s rest stored_rest hs _ ih =>
    obtain ⟨hconfig, ⟨set_name, geo_name, hset, hgeo, hobj⟩, hcomp⟩ := hs
    have hs_eq : ({ config := entry, geometry := s.geometry, component_id := s.component_id } :
        BoundaryConditionConfig ConfigTree) = s := by
      cases s
      simp only [BoundaryConditionConfig.mk.injEq, and_true]
      exact hconfig.symm
    rcases hcomp with hsome | ⟨hnone, hn, hzero⟩
    · simp only [ProcessVariable.readBoundaryConditions, hset, hgeo, hobj, hsome, hs_eq]
      rw [ih (bc_configs ++ [s])]
      simp
    · rw [hzero] at hs_eq
      have hstep := ih (bc_configs ++ [s])
      simp only [ProcessVariable.readBoundaryConditions, hset, hgeo, hobj, hnone, if_pos hn,
        hs_eq, hstep]
      simp

theorem construct_iff {ConfigTree IC : Type} (api : ConfigTreeApi ConfigTree)
    (ics : InitialConditionFactories ConfigTree IC) (config : ConfigTree) (mesh : Mesh)
    (geometries : GEOObjects) (bcs_config : ConfigTree) (entries : List ConfigTree)
    (h_bcs : api.getConfigSubtreeOptional config "boundary_conditions" =
      Except.ok (some bcs_config))
    (h_entries : api.getConfigSubtreeList bcs_config "boundary_condition" = Except.ok entries)
    (pv : ProcessVariable ConfigTree IC) :
    ProcessVariable.construct api ics config mesh geometries = Except.ok pv ↔
      api.getConfigParameterString config "name" = Except.ok pv.name ∧
      api.getConfigParameterInt config "components" = Except.ok pv.n_components ∧
      ProcessVariable.readInitialCondition api ics config mesh pv.n_components =
        Except.ok pv.initial_condition ∧
      pv.mesh = mesh ∧
      List.Forall₂ (ProcessVariable.Stores api geometries pv.n_components) entries
        pv.bc_configs := by
  constructor
  · intro h
    have hstores :=
      construct_stores api ics config mesh geometries pv bcs_config entries h h_bcs h_entries
    simp only [ProcessVariable.construct] at h
    split at h
    · cases h
    · rename_i name hname
      split at h
      · cases h
      · rename_i n_components hn
        split at h
        · cases h
        · rename_i initial_condition hic
          split at h
          · cases h
          · cases h
            exact ⟨hname, hn, hic, rfl, hstores⟩
  · rintro ⟨hname, hn, hic, hmesh, hstores⟩
    have hblock : ProcessVariable.readBoundaryConditionsBlock api geometries config pv.name
        pv.n_components = Except.ok pv.bc_configs := by
      simp only [ProcessVariable.readBoundaryConditionsBlock, h_bcs, h_entries]
      rw [readBoundaryConditions_of_stores api geometries pv.name pv.n_components entries
        pv.bc_configs hstores []]
      simp
    simp only [ProcessVariable.construct, hname, hn, hic, hblock]
    cases pv
    simp only [Except.ok.injEq, ProcessVariable.mk.injEq, true_and, and_true]
    exact hmesh.symm

/-- C8 (default component of a boundary condition): the constructor succeeds with a
process variable exactly if name, number of components and initial condition are read
and every `boundary_condition` entry is stored in order with the geometry its names
resolve to and with the component given by its `component` tag, whatever that value
is, or, if the tag is absent and the variable has exactly one component, with
component 0; so on success each stored component is the given one or the default 0;
and when some entry has no `component` tag and the number of components is not 1, the
constructor aborts (so nothing is stored). -/
theorem default_component {ConfigTree IC : Type} (api : ConfigTreeApi ConfigTree)
    (ics : InitialConditionFactories ConfigTree IC) (config : ConfigTree) (mesh : Mesh)
    (geometries : GEOObjects) (bcs_config : ConfigTree) (entries : List ConfigTree)
    (h_bcs : api.getConfigSubtreeOptional config "boundary_conditions" =
      Except.ok (some bcs_config))
    (h_entries : api.getConfigSubtreeList bcs_config "boundary_condition" = Except.ok entries) :
    (∀ pv, ProcessVariable.construct api ics config mesh geometries = Except.ok pv ↔
      api.getConfigParameterString config "name" = Except.ok pv.name ∧
      api.getConfigParameterInt config "components" = Except.ok pv.n_components ∧
      ProcessVariable.readInitialCondition api ics config mesh pv.n_components =
        Except.ok pv.initial_condition ∧
      pv.mesh = mesh ∧
      List.Forall₂
        (fun entry stored =>
          stored.config = entry ∧
          (∃ geometrical_set_name geometry_name,
            api.getConfigParameterString entry "geometrical_set" =
              Except.ok geometrical_set_name ∧
            api.getConfigParameterString entry "geometry" = Except.ok geometry_name ∧
            geometries.getGeoObject geometrical_set_name geometry_name =
              some stored.geometry) ∧
          (api.getConfigParameterOptionalInt entry "component" =
              Except.ok (some stored.component_id) ∨
            (api.getConfigParameterOptionalInt entry "component" = Except.ok none ∧
              pv.n_components = 1 ∧ stored.component_id = 0)))
        entries pv.bc_configs) ∧
    (∀ pv, ProcessVariable.construct api ics config mesh geometries = Except.ok pv →
      List.Forall₂
        (fun entry stored =>
          (∀ c, api.getConfigParameterOptionalInt entry "component" = Except.ok (some c) →
            stored.component_id = c) ∧
          (api.getConfigParameterOptionalInt entry "component" = Except.ok none →
            pv.n_components = 1 ∧ stored.component_id = 0))
        entries pv.bc_configs) ∧
    (∀ n_components, api.getConfigParameterInt config "components" = Except.ok n_components →
      n_components ≠ 1 →
      (∃ entry ∈ entries, api.getConfigParameterOptionalInt entry "component" = Except.ok none) →
      ∃ err, ProcessVariable.construct api ics config mesh geometries = Except.error err) := by
  refine ⟨?_, ?_, ?_⟩
  · intro pv
    exact construct_iff api ics config mesh geometries bcs_config entries h_bcs h_entries pv
  · intro pv hpv
    refine List.Forall₂.imp ?_
      (construct_stores api ics config mesh geometries pv bcs_config entries hpv h_bcs h_entries)
    intro entry stored hs
    obtain ⟨_, _, hcomp⟩ := hs
    rcases hcomp with hsome | ⟨hnone, hn, hzero⟩
    · refine ⟨fun c hc => ?_, fun hnone => ?_⟩
      · rw [hsome] at hc
        cases hc
        rfl
      · rw [hsome] at hnone
        cases hnone
    · refine ⟨fun c hc => ?_, fun _ => ⟨hn, hzero⟩⟩
      rw [hnone] at hc
      cases hc
  · intro n_components hn hne hex
    apply except_error_of_not_ok
    intro pv hpv
    obtain ⟨entry, hmem, hnone⟩ := hex
    obtain ⟨_, hn2, _⟩ := construct_ok api ics config mesh geometries pv hpv
    rw [hn] at hn2
    cases hn2
    obtain ⟨stored, _, hs⟩ := forall₂_exists_of_mem _ _ _
      (construct_stores api ics config mesh geometries pv bcs_config entries hpv h_bcs h_entries)
      entry hmem
    obtain ⟨_, _, hcomp⟩ := hs
    rcases hcomp with hsome | ⟨_, hone, _⟩
    · rw [hsome] at hnone
      cases hnone
    · exact hne hone

/-- Witness for C8: the example configuration.  With one component the constructor stores
component 0 for `inflow`, which has no `component` tag, and the given component for
`outflow`, be it 0 or the out-of-range 5; with two components it aborts because of
`inflow`. -/
theorem default_component_witness :
    (exampleConfigApi 1).getConfigSubtreeOptional ExampleConfigTree.processVariable
        "boundary_conditions" = Except.ok (some ExampleConfigTree.boundaryConditions) ∧
    (exampleConfigApi 1).getConfigSubtreeList ExampleConfigTree.boundaryConditions
        "boundary_condition" = Except.ok [ExampleConfigTree.inflow, ExampleConfigTree.outflow] ∧
    ProcessVariable.construct (exampleConfigApi 1) exampleInitialConditions
        ExampleConfigTree.processVariable exampleMesh exampleGeometries =
      Except.ok exampleProcessVariable ∧
    ProcessVariable.construct exampleConfigApiComponent5 exampleInitialConditions
        ExampleConfigTree.processVariable exampleMesh exampleGeometries =
      Except.ok exampleProcessVariableComponent5 ∧
    List.Forall₂
      (fun entry stored =>
        (∀ c, (exampleConfigApi 1).getConfigParameterOptionalInt entry "component" =
            Except.ok (some c) → stored.component_id = c) ∧
        ((exampleConfigApi 1).getConfigParameterOptionalInt entry "component" = Except.ok none →
          exampleProcessVariable.n_components = 1 ∧ stored.component_id = 0))
      [ExampleConfigTree.inflow, ExampleConfigTree.outflow] exampleProcessVariable.bc_configs ∧
    ∃ err, ProcessVariable.construct (exampleConfigApi 2) exampleInitialConditions
      ExampleConfigTree.processVariable exampleMesh exampleGeometries = Except.error err :=
  ⟨rfl, rfl, rfl,
   ((default_component exampleConfigApiComponent5 exampleInitialConditions
      ExampleConfigTree.processVariable exampleMesh exampleGeometries
      ExampleConfigTree.boundaryConditions [ExampleConfigTree.inflow, ExampleConfigTree.outflow]
      rfl rfl).1 exampleProcessVariableComponent5).mpr
      ⟨rfl, rfl, rfl, rfl,
        List.Forall₂.cons ⟨rfl, ⟨"square", "left", rfl, rfl, rfl⟩, Or.inr ⟨rfl, rfl, rfl⟩⟩
          (List.Forall₂.cons ⟨rfl, ⟨"square", "right", rfl, rfl, rfl⟩, Or.inl rfl⟩
            List.Forall₂.nil)⟩,
   (default_component (exampleConfigApi 1) exampleInitialConditions
      ExampleConfigTree.processVariable exampleMesh exampleGeometries
      ExampleConfigTree.boundaryConditions [ExampleConfigTree.inflow, ExampleConfigTree.outflow]
      rfl rfl).2.1 exampleProcessVariable rfl,
   (default_component (exampleConfigApi 2) exampleInitialConditions
      ExampleConfigTree.processVariable exampleMesh exampleGeometries
      ExampleConfigTree.boundaryConditions [ExampleConfigTree.inflow, ExampleConfigTree.outflow]
      rfl rfl).2.2 2 rfl (by decide)
      ⟨ExampleConfigTree.inflow, List.mem_cons_self _ _, rfl⟩⟩

/-- C9 (missing geometry is fatal): when the two names of some `boundary_condition` entry
resolve to no geometry object, the constructor aborts (so nothing is stored); when it
succeeds, the stored boundary-condition configs are the configured entries, one per
entry and in configuration order, each with the geometry that its names resolve to. -/
theorem missing_geometry_fatal {ConfigTree IC : Type} (api : ConfigTreeApi ConfigTree)
    (ics : InitialConditionFactories ConfigTree IC) (config : ConfigTree) (mesh : Mesh)
    (geometries : GEOObjects) (bcs_config : ConfigTree) (entries : List ConfigTree)
    (h_bcs : api.getConfigSubtreeOptional config "boundary_conditions" =
      Except.ok (some bcs_config))
    (h_entries : api.getConfigSubtreeList bcs_config "boundary_condition" = Except.ok entries) :
    ((∃ entry ∈ entries, ∃ geometrical_set_name geometry_name,
        api.getConfigParameterString entry "geometrical_set" = Except.ok geometrical_set_name ∧
        api.getConfigParameterString entry "geometry" = Except.ok geometry_name ∧
        geometries.getGeoObject geometrical_set_name geometry_name = none) →
      ∃ err, ProcessVariable.construct api ics config mesh geometries = Except.error err) ∧
    (∀ pv, ProcessVariable.construct api ics config mesh geometries = Except.ok pv →
      pv.bc_configs.map (fun stored => stored.config) = entries ∧
      List.Forall₂
        (fun entry stored =>
          ∃ geometrical_set_name geometry_name,
            api.getConfigParameterString entry "geometrical_set" =
              Except.ok geometrical_set_name ∧
            api.getConfigParameterString entry "geometry" = Except.ok geometry_name ∧
            geometries.getGeoObject geometrical_set_name geometry_name = some stored.geometry)
        entries pv.bc_configs) := by
  constructor
  · rintro ⟨entry, hmem, set_name, geo_name, hset, hgeo, hnone⟩
    apply except_error_of_not_ok
    intro pv hpv
    obtain ⟨stored, _, hs⟩ := forall₂_exists_of_mem _ _ _
      (construct_stores api ics config mesh geometries pv bcs_config entries hpv h_bcs h_entries)
      entry hmem
    obtain ⟨_, ⟨set_name1, geo_name1, hset1, hgeo1, hsome⟩, _⟩ := hs
    rw [hset] at hset1
    rw [hgeo] at hgeo1
    cases hset1
    cases hgeo1
    rw [hnone] at hsome
    cases hsome
  · intro pv hpv
    have hall :=
      construct_stores api ics config mesh geometries pv bcs_config entries hpv h_bcs h_entries
    exact ⟨stores_map_config api geometries pv.n_components entries pv.bc_configs hall,
      List.Forall₂.imp (fun _ _ hs => hs.2.1) hall⟩

/-- Witness for C9: the example configuration; with both geometries present the constructor
stores the two entries in order, without the geometry "right" it aborts. -/
theorem missing_geometry_fatal_witness :
    (exampleConfigApi 1).getConfigSubtreeOptional ExampleConfigTree.processVariable
        "boundary_conditions" = Except.ok (some ExampleConfigTree.boundaryConditions) ∧
    (exampleConfigApi 1).getConfigSubtreeList ExampleConfigTree.boundaryConditions
        "boundary_condition" = Except.ok [ExampleConfigTree.inflow, ExampleConfigTree.outflow] ∧
    (exampleProcessVariable.bc_configs.map (fun stored => stored.config) =
        [ExampleConfigTree.inflow, ExampleConfigTree.outflow] ∧
      List.Forall₂
        (fun entry stored =>
          ∃ geometrical_set_name geometry_name,
            (exampleConfigApi 1).getConfigParameterString entry "geometrical_set" =
              Except.ok geometrical_set_name ∧
            (exampleConfigApi 1).getConfigParameterString entry "geometry" =
              Except.ok geometry_name ∧
            exampleGeometries.getGeoObject geometrical_set_name geometry_name =
              some stored.geometry)
        [ExampleConfigTree.inflow, ExampleConfigTree.outflow]
        exampleProcessVariable.bc_configs) ∧
    ∃ err, ProcessVariable.construct (exampleConfigApi 1) exampleInitialConditions
      ExampleConfigTree.processVariable exampleMesh exampleGeometriesLeftOnly =
        Except.error err :=
  ⟨rfl, rfl,
   (missing_geometry_fatal (exampleConfigApi 1) exampleInitialConditions
      ExampleConfigTree.processVariable exampleMesh exampleGeometries
      ExampleConfigTree.boundaryConditions [ExampleConfigTree.inflow, ExampleConfigTree.outflow]
      rfl rfl).2 exampleProcessVariable rfl,
   (missing_geometry_fatal (exampleConfigApi 1) exampleInitialConditions
      ExampleConfigTree.processVariable exampleMesh exampleGeometriesLeftOnly
      ExampleConfigTree.boundaryConditions [ExampleConfigTree.inflow, ExampleConfigTree.outflow]
      rfl rfl).1
      ⟨ExampleConfigTree.outflow, List.mem_cons_of_mem _ (List.mem_cons_self _ _),
        "square", "right", rfl, rfl, rfl⟩⟩

/-! ## Degenerate triangles -/

/-- C10 (`TemplateTri::reviseElement`): the result is `NULL` exactly if the first three
nodes are pairwise distinct; if node 0 = node 1 or node 1 = node 2 it is the edge
(node 0, node 2) with the triangle's value; if only node 0 = node 2 it is the edge
(node 0, node 1) with the triangle's value; and whenever exactly two of the three
nodes coincide, the two end nodes of the edge are distinct. -/
theorem reviseElement_cases {NNODES : Nat} (tri : TemplateTri NNODES) :
    (tri.reviseElement = none ↔
      tri.node0 ≠ tri.node1 ∧ tri.node1 ≠ tri.node2 ∧ tri.node0 ≠ tri.node2) ∧
    (tri.node0 = tri.node1 ∨ tri.node1 = tri.node2 →
      tri.reviseElement = some { nodes := [tri.node0, tri.node2], value := tri.value }) ∧
    (tri.node0 ≠ tri.node1 → tri.node1 ≠ tri.node2 → tri.node0 = tri.node2 →
      tri.reviseElement = some { nodes := [tri.node0, tri.node1], value := tri.value }) ∧
    ((tri.node0 = tri.node1 ∧ tri.node1 ≠ tri.node2) ∨
      (tri.node1 = tri.node2 ∧ tri.node0 ≠ tri.node1) ∨
      (tri.node0 = tri.node2 ∧ tri.node0 ≠ tri.node1) →
      ∃ a b, tri.reviseElement = some { nodes := [a, b], value := tri.value } ∧ a ≠ b) := by
  refine ⟨?_, ?_, ?_, ?_⟩
  · simp only [TemplateTri.reviseElement]
    split_ifs with h1 h2
    · simp only [reduceCtorEq, false_iff]
      rintro ⟨h3, h4, _⟩
      rcases h1 with h | h
      · exact h3 h
      · exact h4 h
    · simp only [reduceCtorEq, false_iff]
      rintro ⟨_, _, h5⟩
      exact h5 h2
    · simp only [true_iff]
      exact ⟨fun h => h1 (Or.inl h), fun h => h1 (Or.inr h), h2⟩
  · intro h
    simp only [TemplateTri.reviseElement, if_pos h]
  · intro h1 h2 h3
    have h : ¬ (tri.node0 = tri.node1 ∨ tri.node1 = tri.node2) := by
      rintro (h | h)
      · exact h1 h
      · exact h2 h
    simp only [TemplateTri.reviseElement, if_neg h, if_pos h3]
  · rintro (⟨h1, h2⟩ | ⟨h1, h2⟩ | ⟨h1, h2⟩)
    · refine ⟨tri.node0, tri.node2, ?_, ?_⟩
      · simp only [TemplateTri.reviseElement, if_pos (Or.inl h1)]
      · rw [h1]
        exact h2
    · refine ⟨tri.node0, tri.node2, ?_, ?_⟩
      · simp only [TemplateTri.reviseElement, if_pos (Or.inr h1)]
      · rw [← h1]
        exact h2
    · have h : ¬ (tri.node0 = tri.node1 ∨ tri.node1 = tri.node2) := by
        rintro (h | h)
        · exact h2 h
        · apply h2
          rw [h, h1]
      refine ⟨tri.node0, tri.node1, ?_, h2⟩
      simp only [TemplateTri.reviseElement, if_neg h, if_pos h1]

/-- Witness for C10: a triangle with nodes 5, 5, 8 and value 7 becomes the edge (5, 8) with
value 7. -/
theorem reviseElement_cases_witness :
    (exampleCollapsedTri.node0 = exampleCollapsedTri.node1 ∨
      exampleCollapsedTri.node1 = exampleCollapsedTri.node2) ∧
    exampleCollapsedTri.reviseElement =
      some { nodes := [exampleCollapsedTri.node0, exampleCollapsedTri.node2],
             value := exampleCollapsedTri.value } :=
  ⟨Or.inl rfl, (reviseElement_cases exampleCollapsedTri).2.1 (Or.inl rfl)⟩

/-! ## Integration-point accessors of the local assembler -/

theorem interpolateLoop_eq (local_nodal_values : List ℚ) (shape_matrices : List ShapeMatrices)
    (done rest : List ℚ) (h : shape_matrices.length ≤ rest.length) :
    interpolateLoop local_nodal_values done.length shape_matrices (done ++ rest) =
      done ++ shape_matrices.map (fun sm => shapeFunctionInterpolate local_nodal_values sm.N) ++
        rest.drop shape_matrices.length := by
  induction shape_matrices generalizing done rest with
  | nil => simp [interpolateLoop]
  | cons sm sms ih =>
    cases rest with
    | nil => simp at h
    | cons v rest =>
      have hlen : sms.length ≤ rest.length := by simpa using h
      have hset : (done ++ v :: rest).set done.length
          (shapeFunctionInterpolate local_nodal_values sm.N) =
          (done ++ [shapeFunctionInterpolate local_nodal_values sm.N]) ++ rest := by
        simp
      have hnext := ih (done ++ [shapeFunctionInterpolate local_nodal_values sm.N]) rest hlen
      simp only [List.length_append, List.length_singleton] at hnext
      simp only [interpolateLoop, hset, hnext]
      simp

theorem interpolate_values (self : LocalAssemblerData) (local_nodal_values : List ℚ)
    (h : self.int_pt_values.length = self.shape_matrices.length) :
    (self.interpolateNodalValuesToIntegrationPoints local_nodal_values).int_pt_values =
      self.shape_matrices.map (fun sm => shapeFunctionInterpolate local_nodal_values sm.N) := by
  have hloop := interpolateLoop_eq local_nodal_values self.shape_matrices [] self.int_pt_values
    (by omega)
  simp only [List.length_nil, List.nil_append] at hloop
  simp only [LocalAssemblerData.interpolateNodalValuesToIntegrationPoints,
    OGS.interpolateNodalValuesToIntegrationPoints, hloop]
  rw [List.drop_of_length_le (by omega)]
  simp

theorem reachable_shape (initShapeMatrices : Element → Nat → List ShapeMatrices)
    (e : Element) (integration_order : Nat) (self : LocalAssemblerData)
    (h : LocalAssemblerData.Reachable initShapeMatrices e integration_order self) :
    self.shape_matrices = initShapeMatrices e integration_order ∧
      self.int_pt_values.length = self.shape_matrices.length := by
  induction h with
  | construct local_matrix_size => simp [LocalAssemblerData.construct]
  | interpolate a local_nodal_values _ ih =>
    refine ⟨ih.1, ?_⟩
    simp only [LocalAssemblerData.interpolateNodalValuesToIntegrationPoints,
      OGS.interpolateNodalValuesToIntegrationPoints, interpolateLoop_length]
    exact ih.2

/-- C11 (integration-point accessors): a local assembler with `m` shape matrices, as
constructed and after every `interpolateNodalValuesToIntegrationPoints` call, stores
`m` values, so every integration point `ip < m` is a valid position and an
interpolation writes the interpolated value there; `getStoredQuantity` returns the
stored values and leaves the cache as it was; `getDerivedQuantity` returns, whatever
the cache held, a sequence of length `m` whose entries are 2 times the stored ones; a
repeated call of either accessor returns the same result. -/
theorem integration_point_accessors (initShapeMatrices : Element → Nat → List ShapeMatrices)
    (e : Element) (integration_order : Nat) (self : LocalAssemblerData)
    (h : LocalAssemblerData.Reachable initShapeMatrices e integration_order self) :
    self.shape_matrices = initShapeMatrices e integration_order ∧
    self.int_pt_values.length = self.shape_matrices.length ∧
    (∀ ip, ip < self.shape_matrices.length → ip < self.int_pt_values.length) ∧
    (∀ local_nodal_values,
      (self.interpolateNodalValuesToIntegrationPoints local_nodal_values).int_pt_values =
        self.shape_matrices.map
          (fun sm => shapeFunctionInterpolate local_nodal_values sm.N)) ∧
    (∀ cache, self.getStoredQuantity cache = (self.int_pt_values, cache)) ∧
    (∀ cache,
      (self.getDerivedQuantity cache).1.length = self.shape_matrices.length ∧
      (∀ i : Nat, (self.getDerivedQuantity cache).1[i]? =
        (self.int_pt_values[i]?).map (fun value => 2 * value)) ∧
      (self.getDerivedQuantity cache).2 = (self.getDerivedQuantity cache).1) ∧
    (∀ cache cache1, self.getDerivedQuantity cache1 = self.getDerivedQuantity cache) ∧
    (∀ cache,
      self.getDerivedQuantity (self.getDerivedQuantity cache).2 =
        self.getDerivedQuantity cache ∧
      self.getStoredQuantity (self.getStoredQuantity cache).2 =
        self.getStoredQuantity cache) := by
  obtain ⟨hshape, hlen⟩ := reachable_shape initShapeMatrices e integration_order self h
  refine ⟨hshape, hlen, ?_, ?_, ?_, ?_, ?_, ?_⟩
  · intro ip hip
    omega
  · intro local_nodal_values
    exact interpolate_values self local_nodal_values hlen
  · intro cache
    rfl
  · intro cache
    rw [getDerivedQuantity_eq]
    refine ⟨?_, ?_, rfl⟩
    · simp [hlen]
    · intro i
      simp
  · intro cache cache1
    rw [getDerivedQuantity_eq, getDerivedQuantity_eq]
  · intro cache
    refine ⟨?_, rfl⟩
    rw [getDerivedQuantity_eq, getDerivedQuantity_eq]

/-- Witness for C11: the local assembler of the first element of the example mesh, after
two interpolation calls. -/
theorem integration_point_accessors_witness :
    LocalAssemblerData.Reachable (exampleKernel.initShapeMatrices 1)
      { nodes := [0, 1], dimension := 1 } 2
      (((LocalAssemblerData.construct (exampleKernel.initShapeMatrices 1)
          { nodes := [0, 1], dimension := 1 } 2 2).interpolateNodalValuesToIntegrationPoints
          [3, 5]).interpolateNodalValuesToIntegrationPoints [1, 2]) ∧
    (((LocalAssemblerData.construct (exampleKernel.initShapeMatrices 1)
        { nodes := [0, 1], dimension := 1 } 2 2).interpolateNodalValuesToIntegrationPoints
        [3, 5]).interpolateNodalValuesToIntegrationPoints [1, 2]).int_pt_values.length =
      (((LocalAssemblerData.construct (exampleKernel.initShapeMatrices 1)
        { nodes := [0, 1], dimension := 1 } 2 2).interpolateNodalValuesToIntegrationPoints
        [3, 5]).interpolateNodalValuesToIntegrationPoints [1, 2]).shape_matrices.length :=
  ⟨LocalAssemblerData.Reachable.interpolate _ _
     (LocalAssemblerData.Reachable.interpolate _ _ (LocalAssemblerData.Reachable.construct 2)),
   (integration_point_accessors (exampleKernel.initShapeMatrices 1)
      { nodes := [0, 1], dimension := 1 } 2 _
      (LocalAssemblerData.Reachable.interpolate _ _
        (LocalAssemblerData.Reachable.interpolate _ _
          (LocalAssemblerData.Reachable.construct 2)))).2.1⟩

end OGS
